import Mathlib

/-!
# Verification of the debate orchestration engine

A shallow embedding of the TreeHacks2026 debate orchestration core:

* `src/lib/agents/prompts/debater-system.ts` — `getTurnType`
* `src/lib/orchestrator/turn-manager.ts` — `estimateDisplayTime`,
  `TurnManager.generateTurn`, `TurnManager.persistTurn`,
  `TurnManager.runFactChecks`
* `src/lib/agents/fact-checker.ts` — `FactCheckerAgent.checkClaims`,
  `parseResponse`, `normalizeVerdict`, `buildFallbackResults`
* `src/lib/research/parallel-research.ts` — `conductParallelResearch`,
  `runPerplexitySearch`, `buildSearchQuery`, `buildCombinedContext`
* `src/lib/orchestrator/debate-orchestrator.ts` — `DebateOrchestrator.runDebate`,
  `updateStatus`, `loadDocuments`

External collaborators (Supabase, Anthropic, Perplexity, OpenAI TTS) are
abstracted as an environment `Env` that fixes the outcome of every external
call; persistence writes and collaborator invocations are recorded as an
event trace.  Machine numbers of the source (JS `number`) are modelled as
`ℚ` where fractional arithmetic occurs (confidence scores, display times)
and as `ℕ`/`ℤ` for turn counters.
-/

namespace DebateModel

/-- `TurnType` from `src/types/debate.ts`:
`type TurnType = 'intro' | 'rebuttal' | 'conclusion'`. -/
inductive TurnType where
  | intro
  | rebuttal
  | conclusion
deriving DecidableEq, Repr

/-- The debating side of an agent (`'pro' | 'con'`). -/
inductive Role where
  | pro
  | con
deriving DecidableEq, Repr

/-- `ResearchSource` from `src/types/debate.ts`. -/
structure ResearchSource where
  url : String
  title : String
  snippet : String
deriving DecidableEq, Repr

/-- Result of `PerplexityClient.search` (`src/lib/research/perplexity.ts`). -/
structure PerplexityResult where
  answer : String
  sources : List ResearchSource
deriving DecidableEq, Repr

/-- `ResearchResults` from `src/lib/research/parallel-research.ts`. -/
structure ResearchResults where
  perplexityAnswer : String
  sources : List ResearchSource
  combinedContext : String
deriving DecidableEq, Repr

/-- `Citation` from `src/types/debate.ts`. -/
structure Citation where
  label : String
  source_url : Option String
deriving DecidableEq, Repr

/-- `AgentResponse` (`src/types/agent.ts`): the structured output of a
debater generation call. -/
structure AgentResponse where
  argument : String
  citations : List Citation
  claims : List String
deriving DecidableEq, Repr

/-- A document row as selected by `DebateOrchestrator.loadDocuments`. -/
structure Document where
  id : String
  title : String
  summary : String
  source_url : String
deriving DecidableEq, Repr

/-- `DebateAgent` row (`debate_agents` table): the fields the orchestration
core reads. -/
structure Agent where
  id : String
  role : String
  name : String
  persona_description : String
  voice_id : String
deriving DecidableEq, Repr

/-- `DebateConfig` from `src/types/debate.ts`. -/
structure DebateConfig where
  maxTurns : Nat
  turnTimeLimitSec : Nat
  researchDepth : String
  voiceEnabled : Bool
  debateType : String
deriving DecidableEq, Repr

/-- `Debate` row: the fields read during orchestration. -/
structure Debate where
  id : String
  topic : String
  description : String
  status : String
  config : DebateConfig
deriving DecidableEq, Repr

/-- A persisted `debate_turns` row, restricted to the fields the
orchestrator reads back (`turn_number`, which agent spoke, `content`). -/
structure Turn where
  turn_number : Nat
  role : Role
  content : String
deriving DecidableEq, Repr

/-- A source object inside a raw fact-checker JSON claim. -/
structure RawSource where
  url : Option String
  title : Option String
  relevant_text : Option String
deriving DecidableEq, Repr

/-- One entry of the `claims` array of the fact-checker model response,
before normalization (`parseResponse`).  `none` models a missing field or a
field of the wrong JSON type (`typeof c.confidence === 'number'` fails,
`Array.isArray(c.sources)` fails, ...). -/
structure RawClaim where
  claim_text : Option String
  verdict : Option String
  explanation : Option String
  confidence : Option ℚ
  sources : Option (List RawSource)
deriving DecidableEq, Repr

/-- The structural outcome of decoding the fact-checker model response in
`FactCheckerAgent.parseResponse`: either no JSON object could be obtained
(direct `JSON.parse` fails and the extracted `\x7b...\x7d` match also fails
to parse), or a JSON object was obtained whose `claims` field is an array
(`some`) or missing/non-array (`none`). -/
inductive RawResponse where
  | unparseable
  | parsed (claims : Option (List RawClaim))
deriving DecidableEq, Repr

/-- `FactCheckResult` from `src/lib/agents/fact-checker.ts`. -/
structure FactCheckResult where
  claim_text : String
  verdict : String
  explanation : String
  sources : List ResearchSource
  confidence : ℚ
  is_lie : Bool
deriving DecidableEq, Repr

/-- `GeneratedTurnData` from `src/lib/orchestrator/turn-manager.ts`:
everything `generateTurn` hands to `persistTurn`. -/
structure GeneratedTurnData where
  debate : Debate
  agent : Agent
  role : Role
  turnNumber : Nat
  turnType : TurnType
  agentResponse : AgentResponse
  citations : List Citation
  researchSources : List ResearchSource
  audioUrl : Option String
  researchResults : ResearchResults
deriving DecidableEq, Repr

/-- The moderator summary payload (`ModeratorAgent.generateSummary`); its
contents are opaque to the claims verified here, only success/failure of
the call matters to control flow. -/
structure SummaryData where
  overall_summary : String
  winner_analysis : String
  recommendations : String
deriving DecidableEq, Repr

/-- `getTurnType` from `src/lib/agents/prompts/debater-system.ts`:

```
if (turnNumber <= 2) return 'intro';
if (turnNumber >= maxTurns - 1) return 'conclusion';
return 'rebuttal';
```

Arguments are `ℤ` to match JS integer arithmetic (`maxTurns - 1` may be
negative for degenerate inputs). -/
def getTurnType (turnNumber maxTurns : ℤ) : TurnType :=
  if turnNumber ≤ 2 then .intro
  else if maxTurns - 1 ≤ turnNumber then .conclusion
  else .rebuttal

/-- Count the maximal runs of non-whitespace characters; `inWord` records
whether the previous character belonged to such a run. -/
def countTokens : List Char → Bool → Nat
  | [], _ => 0
  | c :: rest, inWord =>
    if c.isWhitespace then countTokens rest false
    else (if inWord then 0 else 1) + countTokens rest true

/-- The word count used by `estimateDisplayTime`:
`content.split(/\s+/).filter(Boolean).length`, i.e. the number of
non-empty whitespace-separated tokens (maximal non-whitespace runs). -/
def wordCount (content : String) : Nat :=
  countTokens content.toList false

/-- `estimateDisplayTime` from `src/lib/orchestrator/turn-manager.ts`:
`Math.max((wordCount / 150) * 60 * 1000, 15000)` milliseconds. -/
def estimateDisplayTime (content : String) : ℚ :=
  max ((wordCount content : ℚ) / 150 * 60 * 1000) 15000

/-- `FactCheckerAgent.normalizeVerdict`: lowercase, trim, and force into
the closed six-value verdict set. -/
def normalizeVerdict (verdict : String) : String :=
  let validVerdicts := ["true", "mostly_true", "mixed", "mostly_false", "false", "unverifiable"]
  let normalized := verdict.toLower.trim
  if validVerdicts.contains normalized then normalized else "unverifiable"

/-- The per-claim normalization in `FactCheckerAgent.parseResponse`
(the body of `claims.map`): default the verdict, clamp the confidence to
`[0, 1]` (default `0.5` when the field is not a number), and derive
`is_lie := confidence >= 0.8 && (verdict === 'false' || verdict === 'mostly_false')`. -/
def toFactCheckResult (c : RawClaim) : FactCheckResult :=
  let verdict := normalizeVerdict (c.verdict.getD "unverifiable")
  let confidence : ℚ :=
    match c.confidence with
    | some q => max 0 (min 1 q)
    | none => 1/2
  let isLie : Bool := decide ((8 : ℚ)/10 ≤ confidence) &&
    (verdict == "false" || verdict == "mostly_false")
  { claim_text := c.claim_text.getD ""
    verdict := verdict
    explanation := c.explanation.getD ""
    sources :=
      match c.sources with
      | some ss => ss.map fun s => ⟨s.url.getD "", s.title.getD "", s.relevant_text.getD ""⟩
      | none => []
    confidence := confidence
    is_lie := isLie }

/-- `FactCheckerAgent.buildFallbackResults`: one conservative
`unverifiable / confidence 0` record per input claim. -/
def buildFallbackResults (claims : List String) : List FactCheckResult :=
  claims.map fun claim =>
    { claim_text := claim
      verdict := "unverifiable"
      explanation := "Unable to verify this claim due to a processing error."
      sources := []
      confidence := 0
      is_lie := false }

/-- `FactCheckerAgent.parseResponse`: on a structural JSON failure return
the fallback records; otherwise map the normalizer over the `claims` array
(missing/non-array `claims` becomes `[]`). -/
def parseResponse (raw : RawResponse) (originalClaims : List String) : List FactCheckResult :=
  match raw with
  | .unparseable => buildFallbackResults originalClaims
  | .parsed claimsOpt => (claimsOpt.getD []).map toFactCheckResult

/-- `FactCheckerAgent.checkClaims`: no-op on an empty claim list; a thrown
API error is wrapped and rethrown; otherwise the raw response is decoded by
`parseResponse`.  `api` is the outcome of the external verification call. -/
def checkClaims (api : Except String RawResponse) (claims : List String) :
    Except String (List FactCheckResult) :=
  if claims.length = 0 then .ok []
  else
    match api with
    | .error e => .error ("Failed to fact-check claims: " ++ e)
    | .ok raw => .ok (parseResponse raw claims)

/-- `buildSearchQuery` from `src/lib/research/parallel-research.ts`. -/
def buildSearchQuery (topic : String) (role : Role) : String :=
  let perspective := match role with
    | .pro => "arguments in favor of"
    | .con => "arguments against"
  perspective ++ " " ++ topic ++ ". Include statistics, expert opinions, and evidence."

/-- `runPerplexitySearch`: the external search call wrapped in a
try/catch that converts any failure into an empty result. -/
def runPerplexitySearch (outcome : Except String PerplexityResult) : PerplexityResult :=
  match outcome with
  | .ok r => r
  | .error _ => ⟨"", []⟩

/-- `buildCombinedContext` from `src/lib/research/parallel-research.ts`:
a deterministic concatenation of the narrative answer and a bulleted
source list. -/
def buildCombinedContext (perplexity : PerplexityResult) : String :=
  let sourceLines : List String :=
    perplexity.sources.flatMap fun source =>
      ["- [" ++ source.title ++ "](" ++ source.url ++ ")"] ++
        (if source.snippet ≠ "" then ["  > " ++ source.snippet] else [])
  let sections : List String :=
    if perplexity.answer ≠ "" then
      ["## Web Research (Perplexity)", perplexity.answer] ++
        (if perplexity.sources.length > 0 then ["\n### Sources"] ++ sourceLines else [])
    else []
  if sections = [] then "No research context available. Please rely on general knowledge."
  else String.intercalate "\n" sections

/-- An observable step of the orchestration: a persistence write issued
against the durable store, an external collaborator invocation, or a timed
suspension.  Write events carry the `ok` flag of the store round-trip so
that non-fatal write failures remain visible in the trace. -/
inductive Event where
  /-- `updateStatus`: `update debates set status = s` (failure only logged). -/
  | statusWrite (status : String) (ok : Bool)
  /-- The catch-block write: `update debates set status = 'completed',
  description = desc` where `desc` is the error marker. -/
  | errorWrite (description : String) (ok : Bool)
  /-- `PerplexityClient.search` invocation inside `conductParallelResearch`. -/
  | searchCall (role : Role) (query : String)
  /-- `persistSourceDocuments`: bulk insert of discovered sources. -/
  | docsInsert (debateId : String) (count : Nat) (ok : Bool)
  /-- `loadDocuments` select at the start of a pair. -/
  | docsLoad (pairStart : Nat)
  /-- `DebaterAgent.generateArgument` invocation; `history` is the list of
  turn numbers of the `previousTurns` passed to the call. -/
  | genCall (turnNumber : Nat) (role : Role) (history : List Nat)
  /-- `insert into debate_turns` in `persistTurn`. -/
  | turnInsert (turnNumber : Nat) (role : Role) (turnType : TurnType) (content : String)
  /-- `FactCheckerAgent.checkClaims` invocation in `runFactChecks`. -/
  | verifierCall (turnNumber : Nat) (claims : List String)
  /-- `insert into fact_checks` for one verdict record. -/
  | fcInsert (turnNumber : Nat) (fc : FactCheckResult) (ok : Bool)
  /-- `insert into lie_alerts` for one lie verdict. -/
  | alertInsert (turnNumber : Nat) (severity : String) (confidence : ℚ) (ok : Bool)
  /-- `delay(ms)`: a timed suspension. -/
  | delayStep (ms : ℚ)
  /-- `getVoteResults` select. -/
  | votesRead
  /-- `ModeratorAgent.generateSummary` invocation. -/
  | summaryCall
  /-- `insert into debate_summaries` (failure only logged). -/
  | summaryInsert (ok : Bool)
deriving DecidableEq, Repr

/-- The environment: the outcome of every external call the orchestration
makes.  Indexing is by turn number (for per-turn calls) or claim index
(for per-verdict writes), matching the natural keys of the source. -/
structure Env where
  /-- Outcome of the `debates` select in `runDebate`. -/
  debateLoad : Except String Debate
  /-- Outcome of the `debate_agents` select in `runDebate`. -/
  agentsLoad : Except String (List Agent)
  /-- Outcome of the inner `PerplexityClient.search` call per side. -/
  search : Role → Except String PerplexityResult
  /-- Success of the `documents` bulk insert per side. -/
  docsInsertOk : Role → Bool
  /-- Result of `loadDocuments` per pair start (a failed select yields `[]`
  in the source, so a plain list is faithful here). -/
  documents : Nat → List Document
  /-- Outcome of `DebaterAgent.generateArgument` per turn number. -/
  gen : Nat → Except String AgentResponse
  /-- Outcome of the TTS synthesis/upload per turn number; every failure
  mode of that try/catch block yields `none` (turn persists without audio). -/
  audioUrl : Nat → Option String
  /-- Failure message of the `debate_turns` insert per turn number
  (`none` = row inserted). -/
  turnInsert : Nat → Option String
  /-- Outcome of the fact-checker model call per turn number, decoded
  structurally as a `RawResponse`. -/
  fcApi : Nat → Except String RawResponse
  /-- Success of the `fact_checks` insert per (turn number, claim index). -/
  fcInsertOk : Nat → Nat → Bool
  /-- Success of the `lie_alerts` insert per (turn number, claim index). -/
  alertInsertOk : Nat → Nat → Bool
  /-- Success of the `updateStatus` write per status value. -/
  statusOk : String → Bool
  /-- Outcome of `ModeratorAgent.generateSummary`. -/
  summaryGen : Except String SummaryData
  /-- Success of the `debate_summaries` insert. -/
  summaryInsertOk : Bool
  /-- Success of the catch-block error write. -/
  errWriteOk : Bool

/-- The orchestration effect monad: an accumulated event trace plus a
result that is either a value or a thrown error (a rejected promise). -/
def M (α : Type) : Type := List Event × Except String α

/-- Trace of a computation. -/
def M.trace {α : Type} (m : M α) : List Event := m.1

/-- Result of a computation. -/
def M.result {α : Type} (m : M α) : Except String α := m.2

/-- Return a value, no events. -/
def M.pure {α : Type} (a : α) : M α := ([], .ok a)

/-- Sequencing: events accumulate; a thrown error short-circuits. -/
def M.bind {α β : Type} (m : M α) (f : α → M β) : M β :=
  match m.2 with
  | .error e => (m.1, .error e)
  | .ok a => (m.1 ++ (f a).1, (f a).2)

instance : Monad M where
  pure := M.pure
  bind := M.bind

/-- Record one event. -/
def emit (e : Event) : M Unit := ([e], .ok ())

/-- Throw an error (a JS `throw`). -/
def throwErr {α : Type} (msg : String) : M α := ([], .error msg)

/-- `DebateOrchestrator.updateStatus`: issue the status write; a failed
write is only logged, the method never throws. -/
def updateStatus (env : Env) (status : String) : M Unit :=
  emit (.statusWrite status (env.statusOk status))

/-- `DebateOrchestrator.loadDocuments`: the documents select; a failed
select yields `[]` (logged, never thrown). -/
def loadDocuments (env : Env) (pairStart : Nat) : M (List Document) :=
  M.bind (emit (.docsLoad pairStart)) fun _ =>
  M.pure (env.documents pairStart)

/-- `conductParallelResearch` from `src/lib/research/parallel-research.ts`:
run the (failure-absorbing) search, opportunistically persist non-empty
sources, and assemble the research bundle.  Never throws. -/
def conductParallelResearch (env : Env) (topic : String) (role : Role)
    (debateId : String) : M ResearchResults :=
  M.bind (emit (.searchCall role (buildSearchQuery topic role))) fun _ =>
  let result := runPerplexitySearch (env.search role)
  M.bind
    (if result.sources.length > 0 then
      emit (.docsInsert debateId result.sources.length (env.docsInsertOk role))
    else M.pure ()) fun _ =>
  M.pure ⟨result.answer, result.sources, buildCombinedContext result⟩

/-- `TurnManager.generateTurn`: call the debater model with the prior-turn
history and research context; synthesize speech (failure tolerated, giving
`audioUrl = none`); package everything for `persistTurn`.  Throws iff the
generation call throws. -/
def generateTurn (env : Env) (debate : Debate) (agent : Agent) (role : Role)
    (turnNumber : Nat) (turnType : Option TurnType) (previousTurns : List Turn)
    (researchResults : ResearchResults) (documents : List Document) :
    M GeneratedTurnData :=
  M.bind (emit (.genCall turnNumber role (previousTurns.map Turn.turn_number))) fun _ =>
  match env.gen turnNumber with
  | .error e => throwErr e
  | .ok response =>
    M.pure
      { debate := debate
        agent := agent
        role := role
        turnNumber := turnNumber
        turnType := turnType.getD .rebuttal
        agentResponse := response
        citations := response.citations
        researchSources := researchResults.sources
        audioUrl := env.audioUrl turnNumber
        researchResults := researchResults }

/-- The writes issued for one verdict record inside
`TurnManager.runFactChecks`: the `fact_checks` insert, and, when the row
landed and the verdict is a lie, a `lie_alerts` insert whose severity is
`critical` iff `confidence >= 0.9`. -/
def factCheckWrites (turnNumber : Nat) (insOk alertOk : Bool)
    (fc : FactCheckResult) : List Event :=
  .fcInsert turnNumber fc insOk ::
    (if insOk && fc.is_lie then
      [.alertInsert turnNumber
        (if (9 : ℚ)/10 ≤ fc.confidence then "critical" else "warning")
        fc.confidence alertOk]
    else [])

/-- The `Promise.all` over verdict inserts in `runFactChecks`, linearized
in claim order; individual insert failures are logged, never thrown. -/
def persistFactChecks (env : Env) (turnNumber : Nat)
    (results : List FactCheckResult) : M Unit :=
  (results.enum.flatMap fun p =>
    factCheckWrites turnNumber (env.fcInsertOk turnNumber p.1)
      (env.alertInsertOk turnNumber p.1) p.2,
   .ok ())

/-- `TurnManager.runFactChecks`: skip entirely when the response carries no
claims; otherwise invoke the fact checker (wrapped errors propagate) and
persist every verdict and its alerts. -/
def runFactChecks (env : Env) (turn : Turn) (agentResponse : AgentResponse) :
    M (List FactCheckResult) :=
  if agentResponse.claims.length = 0 then M.pure []
  else
    M.bind (emit (.verifierCall turn.turn_number agentResponse.claims)) fun _ =>
    match checkClaims (env.fcApi turn.turn_number) agentResponse.claims with
    | .error e => throwErr e
    | .ok results =>
      M.bind (persistFactChecks env turn.turn_number results) fun _ =>
      M.pure results

/-- The `debate_turns` row handed back by the insert in `persistTurn`
(restricted to the fields later read). -/
def mkTurn (g : GeneratedTurnData) : Turn :=
  ⟨g.turnNumber, g.role, g.agentResponse.argument⟩

/-- `TurnManager.persistTurn`: insert the turn row (an insert error is
thrown), then run fact checks against the persisted turn. -/
def persistTurn (env : Env) (g : GeneratedTurnData) : M (Turn × List FactCheckResult) :=
  M.bind (emit (.turnInsert g.turnNumber g.role g.turnType g.agentResponse.argument)) fun _ =>
  match env.turnInsert g.turnNumber with
  | some e => throwErr ("Failed to insert debate turn: " ++ e)
  | none =>
    M.bind (runFactChecks env (mkTurn g) g.agentResponse) fun factChecks =>
    M.pure (mkTurn g, factChecks)

/-- One iteration of the paired turn loop of `DebateOrchestrator.runDebate`
(lines 110-184): load documents; for an intro pair generate pro and con
concurrently (neither sees the other, both generation calls precede the pro
persist), otherwise generate and persist pro first and only then generate
con against the history extended with the persisted pro turn; in both
branches the con persist follows the pro-keyed display delay.  Returns the
extended `allTurns`. -/
def runPair (env : Env) (debate : Debate) (proAgent conAgent : Agent)
    (proResearch conResearch : ResearchResults) (maxTurns pairStart : Nat)
    (allTurns : List Turn) : M (List Turn) :=
  M.bind (loadDocuments env pairStart) fun documents =>
  if getTurnType (pairStart : ℤ) (maxTurns : ℤ) = .intro then
    M.bind (generateTurn env debate proAgent .pro pairStart
      (some (getTurnType (pairStart : ℤ) (maxTurns : ℤ)))
      allTurns proResearch documents) fun proGenerated =>
    M.bind
      (if pairStart + 1 ≤ maxTurns then
        M.bind (generateTurn env debate conAgent .con (pairStart + 1)
          (some (getTurnType ((pairStart + 1 : Nat) : ℤ) (maxTurns : ℤ)))
          allTurns conResearch documents) fun g =>
        M.pure (some g)
      else M.pure none) fun conGenerated =>
    M.bind (persistTurn env proGenerated) fun proResult =>
    match conGenerated with
    | some conGen =>
      M.bind (emit (.delayStep (estimateDisplayTime proResult.1.content))) fun _ =>
      M.bind (persistTurn env conGen) fun conResult =>
      M.pure (allTurns ++ [proResult.1] ++ [conResult.1])
    | none => M.pure (allTurns ++ [proResult.1])
  else
    M.bind (generateTurn env debate proAgent .pro pairStart
      (some (getTurnType (pairStart : ℤ) (maxTurns : ℤ)))
      allTurns proResearch documents) fun proGenerated =>
    M.bind (persistTurn env proGenerated) fun proResult =>
    if pairStart + 1 ≤ maxTurns then
      M.bind (generateTurn env debate conAgent .con (pairStart + 1)
        (some (getTurnType ((pairStart + 1 : Nat) : ℤ) (maxTurns : ℤ)))
        (allTurns ++ [proResult.1]) conResearch documents) fun conGenerated =>
      M.bind (emit (.delayStep (estimateDisplayTime proResult.1.content))) fun _ =>
      M.bind (persistTurn env conGenerated) fun conResult =>
      M.pure (allTurns ++ [proResult.1] ++ [conResult.1])
    else M.pure (allTurns ++ [proResult.1])

/-- The `for (pairStart = 1; pairStart <= maxTurns; pairStart += 2)` loop. -/
def turnLoop (env : Env) (debate : Debate) (proAgent conAgent : Agent)
    (proResearch conResearch : ResearchResults) (maxTurns pairStart : Nat)
    (allTurns : List Turn) : M (List Turn) :=
  if pairStart ≤ maxTurns then
    M.bind (runPair env debate proAgent conAgent proResearch conResearch
      maxTurns pairStart allTurns) fun turns =>
    turnLoop env debate proAgent conAgent proResearch conResearch
      maxTurns (pairStart + 2) turns
  else M.pure allTurns
termination_by maxTurns + 1 - pairStart
decreasing_by omega

/-- The voting and summary phases of `DebateOrchestrator.runDebate`
(lines 186-243): the fixed 5-second voting window, the vote-tally read,
the summary synthesis call (a thrown error propagates), the summary insert
(a failed insert is only logged), and the final `completed` status write. -/
def runVotingAndSummary (env : Env) : M Unit :=
  M.bind (updateStatus env "voting") fun _ =>
  M.bind (emit (.delayStep 5000)) fun _ =>
  M.bind (updateStatus env "summarizing") fun _ =>
  M.bind (emit .votesRead) fun _ =>
  M.bind (emit .summaryCall) fun _ =>
  match env.summaryGen with
  | .error e => throwErr e
  | .ok _ =>
    M.bind (emit (.summaryInsert env.summaryInsertOk)) fun _ =>
    updateStatus env "completed"

/-- The body of `DebateOrchestrator.runDebate` (the `try` block): load the
debate and its agents (failing fast when either load fails or when a pro or
con participant is missing), run the research fan-out, the live turn loop,
and the voting/summary tail, issuing a status write at each phase
boundary. -/
def runDebateBody (env : Env) (debateId : String) : M Unit :=
  match env.debateLoad with
  | .error e => throwErr ("Failed to load debate " ++ debateId ++ ": " ++ e)
  | .ok debate =>
  match env.agentsLoad with
  | .error e => throwErr ("Failed to load agents for debate " ++ debateId ++ ": " ++ e)
  | .ok agents =>
  match agents.find? (fun a => a.role == "pro"), agents.find? (fun a => a.role == "con") with
  | some proAgent, some conAgent =>
    M.bind (updateStatus env "researching") fun _ =>
    M.bind (conductParallelResearch env debate.topic .pro debateId) fun proResearch =>
    M.bind (conductParallelResearch env debate.topic .con debateId) fun conResearch =>
    M.bind (updateStatus env "live") fun _ =>
    M.bind (turnLoop env debate proAgent conAgent proResearch conResearch
      debate.config.maxTurns 1 []) fun _ =>
    runVotingAndSummary env
  | _, _ => throwErr "Debate requires both a pro and con agent"

/-- `DebateOrchestrator.runDebate`: the try/catch wrapper.  Any error from
the body is caught exactly once; the catch issues a single write forcing
`status = 'completed'` with the `[ERROR]` marker in the description, and
the method returns normally.  The value of `runDebate` is the full trace of
issued writes and collaborator calls. -/
def runDebate (env : Env) (debateId : String) : List Event :=
  match runDebateBody env debateId with
  | (evs, .ok _) => evs
  | (evs, .error msg) => evs ++ [.errorWrite ("[ERROR] " ++ msg) env.errWriteOk]

/-! ## Trace observers and auxiliary definitions -/

/-- The research bundle that `conductParallelResearch` returns under an
environment (it never throws): empty when the search failed. -/
def researchBundle (env : Env) (role : Role) : ResearchResults :=
  ⟨(runPerplexitySearch (env.search role)).answer,
   (runPerplexitySearch (env.search role)).sources,
   buildCombinedContext (runPerplexitySearch (env.search role))⟩

/-- Is this event the catch-block error write? -/
def Event.isErrorWrite : Event → Bool
  | .errorWrite _ _ => true
  | _ => false

/-- The debate status value an event writes, if any (the catch-block write
forces `completed`). -/
def Event.statusSet : Event → Option String
  | .statusWrite s _ => some s
  | .errorWrite _ _ => some "completed"
  | _ => none

/-- The last debate-status value written in a trace. -/
def lastStatusSet (evs : List Event) : Option String :=
  (evs.filterMap Event.statusSet).getLast?

/-- The turn-number/role payload of a `debate_turns` insert, if any. -/
def toPersist : Event → Option (Nat × Role)
  | .turnInsert n r _ _ => some (n, r)
  | _ => none

/-- The sequence of issued `debate_turns` inserts of a trace, in order. -/
def persistsOf (evs : List Event) : List (Nat × Role) :=
  evs.filterMap toPersist

/-- Normalize the store-ack flag of every status write (used to compare
traces up to status-write success). -/
def scrubStatus (evs : List Event) : List Event :=
  evs.map fun e =>
    match e with
    | .statusWrite s _ => .statusWrite s true
    | e => e

/-- Replace the status-write success assignment of an environment. -/
def Env.withStatusOk (env : Env) (f : String → Bool) : Env :=
  { env with statusOk := f }

/-- Equality of computations up to status-write success flags. -/
def MEquiv {α : Type} (m₁ m₂ : M α) : Prop :=
  m₁.2 = m₂.2 ∧ scrubStatus m₁.1 = scrubStatus m₂.1

/-- All events of a computation satisfy `P`. -/
def EventsP (P : Event → Prop) {α : Type} (m : M α) : Prop :=
  ∀ e ∈ m.1, P e

/-- The turn numbers of the `debate_turns` inserts of a trace, pushed (most
recent first) onto an initial list: the scan state for `depScan`. -/
def insAfter : List Event → List Nat → List Nat
  | [], st => st
  | .turnInsert n _ _ _ :: rest, st => insAfter rest (n :: st)
  | _ :: rest, st => insAfter rest st

/-- Scan a trace checking the generation/persistence dependency discipline
for con turns: walking the trace with the set `st` of already-inserted turn
numbers, every con generation call for turn `m` of a non-intro pair must
come after the insert of its paired pro turn `m - 1` and must carry `m - 1`
in its history, while for an intro pair the con generation call must come
before the pro insert and must not see the pro turn. -/
def depScan (maxTurns : Nat) : List Event → List Nat → Bool
  | [], _ => true
  | .genCall m .con h :: rest, st =>
      (if getTurnType ((m : ℤ) - 1) (maxTurns : ℤ) = .intro then
        decide (¬ (m - 1) ∈ st ∧ ¬ (m - 1) ∈ h)
      else
        decide ((m - 1) ∈ st ∧ (m - 1) ∈ h))
      && depScan maxTurns rest st
  | .turnInsert n _ _ _ :: rest, st => depScan maxTurns rest (n :: st)
  | _ :: rest, st => depScan maxTurns rest st

/-- The dependency discipline as a property of a computation: its trace
scans clean from state `st`. -/
def DepOkM (maxTurns : Nat) (st : List Nat) {α : Type} (m : M α) : Prop :=
  depScan maxTurns m.1 st = true

/-- The per-pair shape of generation/persistence events: inside the pair
starting at `pairStart`, every turn insert is the pro turn `pairStart` or
the con turn `pairStart + 1`, and every con generation call is for turn
`pairStart + 1`. -/
def pairEventOk (pairStart : Nat) (e : Event) : Prop :=
  (∀ n r tt c, e = .turnInsert n r tt c →
    ((n = pairStart ∧ r = .pro) ∨ (n = pairStart + 1 ∧ r = .con)))
  ∧ (∀ m h, e = .genCall m .con h → m = pairStart + 1)

/-- The global parity discipline: odd turns are inserted for pro, even for
con, and every con generation call is for an even turn number `≥ 2`. -/
def turnParity (e : Event) : Prop :=
  (∀ n r tt c, e = .turnInsert n r tt c → ((n % 2 = 1 ↔ r = .pro) ∧ 1 ≤ n))
  ∧ (∀ m h, e = .genCall m .con h → (m % 2 = 0 ∧ 2 ≤ m))

/-! ## Sample data (used to instantiate proved theorems at concrete inputs) -/

/-- A pro and a con participant. -/
def sampleAgents : List Agent :=
  [⟨"agent-pro", "pro", "Pro", "persona", "alloy"⟩,
   ⟨"agent-con", "con", "Con", "persona", "echo"⟩]

/-- A debate with the given `maxTurns`. -/
def sampleDebate (mt : Nat) : Debate :=
  ⟨"debate-1", "topic", "", "setup", ⟨mt, 120, "standard", true, "standard"⟩⟩

/-- A generation response with no claims. -/
def sampleResponse : AgentResponse := ⟨"hello world", [], []⟩

/-- A fully successful environment (research lookups down, which is
non-fatal). -/
def sampleEnv (mt : Nat) : Env where
  debateLoad := .ok (sampleDebate mt)
  agentsLoad := .ok sampleAgents
  search := fun _ => .error "down"
  docsInsertOk := fun _ => true
  documents := fun _ => []
  gen := fun _ => .ok sampleResponse
  audioUrl := fun _ => none
  turnInsert := fun _ => none
  fcApi := fun _ => .ok (.parsed (some []))
  fcInsertOk := fun _ _ => true
  alertInsertOk := fun _ _ => true
  statusOk := fun _ => true
  summaryGen := .ok ⟨"s", "w", "r"⟩
  summaryInsertOk := true
  errWriteOk := true

/-- An environment whose debate load throws. -/
def failingEnv : Env := { sampleEnv 2 with debateLoad := .error "boom" }

/-- The events of a successful 4-turn sample run before the con generation
call of the second pair. -/
def sampleTracePrefix : List Event :=
  [.statusWrite "researching" true,
   .searchCall .pro (buildSearchQuery "topic" .pro),
   .searchCall .con (buildSearchQuery "topic" .con),
   .statusWrite "live" true,
   .docsLoad 1,
   .genCall 1 .pro [],
   .genCall 2 .con [],
   .turnInsert 1 .pro .intro "hello world",
   .delayStep (estimateDisplayTime "hello world"),
   .turnInsert 2 .con .intro "hello world",
   .docsLoad 3,
   .genCall 3 .pro [1, 2],
   .turnInsert 3 .pro .conclusion "hello world"]

/-- The events of the same run after that call. -/
def sampleTraceSuffix : List Event :=
  [.delayStep (estimateDisplayTime "hello world"),
   .turnInsert 4 .con .conclusion "hello world",
   .statusWrite "voting" true,
   .delayStep 5000,
   .statusWrite "summarizing" true,
   .votesRead,
   .summaryCall,
   .summaryInsert true,
   .statusWrite "completed" true]

/-! ## Basic lemmas about the effect monad -/

theorem M.bind_mk_ok {α β : Type} (evs : List Event) (a : α) (f : α → M β) :
    M.bind (evs, .ok a) f = (evs ++ (f a).1, (f a).2) := rfl

theorem M.bind_mk_error {α β : Type} (evs : List Event) (e : String) (f : α → M β) :
    M.bind (evs, .error e) f = (evs, .error e) := rfl

theorem M.bind_ok {α β : Type} {m : M α} {a : α} (h : m.2 = .ok a) (f : α → M β) :
    M.bind m f = (m.1 ++ (f a).1, (f a).2) := by
  unfold M.bind; rw [h]

theorem M.bind_error {α β : Type} {m : M α} {e : String} (h : m.2 = .error e) (f : α → M β) :
    M.bind m f = (m.1, .error e) := by
  unfold M.bind; rw [h]

theorem M.bind_emit {β : Type} (e : Event) (f : Unit → M β) :
    M.bind (emit e) f = (e :: (f ()).1, (f ()).2) := rfl

theorem M.bind_result_ok {α β : Type} {m : M α} {f : α → M β} {b : β}
    (h : (M.bind m f).2 = .ok b) : ∃ a, m.2 = .ok a ∧ (f a).2 = .ok b := by
  rcases m with ⟨evs, r⟩
  cases r with
  | error e => exact absurd h (by simp [M.bind])
  | ok a => exact ⟨a, rfl, by simpa [M.bind] using h⟩

theorem M.mem_bind_left {α β : Type} {m : M α} {f : α → M β} {e : Event}
    (h : e ∈ m.1) : e ∈ (M.bind m f).1 := by
  rcases m with ⟨evs, r⟩
  cases r with
  | error msg => simpa [M.bind] using h
  | ok a => simp only [M.bind]; exact List.mem_append_left _ h

theorem EventsP.bind {P : Event → Prop} {α β : Type} {m : M α} {f : α → M β}
    (hm : EventsP P m) (hf : ∀ a, EventsP P (f a)) : EventsP P (M.bind m f) := by
  rcases m with ⟨evs, r⟩
  cases r with
  | error e => exact hm
  | ok a =>
    intro e he
    rcases List.mem_append.mp he with h | h
    · exact hm e h
    · exact hf a e h

theorem EventsP.pure {P : Event → Prop} {α : Type} (a : α) : EventsP P (M.pure a) := by
  intro e he; simp [M.pure] at he

theorem EventsP.throw {P : Event → Prop} {α : Type} (msg : String) :
    EventsP P (throwErr (α := α) msg) := by
  intro e he; simp [throwErr] at he

theorem EventsP.emit {P : Event → Prop} {e : Event} (h : P e) : EventsP P (emit e) := by
  intro x hx
  have hx1 : x ∈ [e] := hx
  rw [List.mem_singleton] at hx1
  exact hx1 ▸ h

/-! ## Shapes of the helper computations -/

theorem generateTurn_eq (env : Env) (debate : Debate) (agent : Agent) (role : Role)
    (turnNumber : Nat) (turnType : Option TurnType) (previousTurns : List Turn)
    (researchResults : ResearchResults) (documents : List Document) :
    generateTurn env debate agent role turnNumber turnType previousTurns
        researchResults documents =
      ([.genCall turnNumber role (previousTurns.map Turn.turn_number)],
        match env.gen turnNumber with
        | .error e => .error e
        | .ok response => .ok
            { debate := debate
              agent := agent
              role := role
              turnNumber := turnNumber
              turnType := turnType.getD .rebuttal
              agentResponse := response
              citations := response.citations
              researchSources := researchResults.sources
              audioUrl := env.audioUrl turnNumber
              researchResults := researchResults }) := by
  unfold generateTurn
  cases env.gen turnNumber <;> rfl

theorem runFactChecks_eq_nil {env : Env} {turn : Turn} {r : AgentResponse}
    (h : r.claims = []) : runFactChecks env turn r = ([], .ok []) := by
  unfold runFactChecks
  rw [h]
  rfl

theorem runFactChecks_eq_cons {env : Env} {turn : Turn} {r : AgentResponse}
    (h : r.claims ≠ []) :
    runFactChecks env turn r =
      (.verifierCall turn.turn_number r.claims ::
          (match checkClaims (env.fcApi turn.turn_number) r.claims with
          | .error _ => []
          | .ok results => (persistFactChecks env turn.turn_number results).1),
        match checkClaims (env.fcApi turn.turn_number) r.claims with
        | .error e => .error e
        | .ok results => .ok results) := by
  unfold runFactChecks
  rw [if_neg (by simpa [List.length_eq_zero] using h)]
  cases hc : checkClaims (env.fcApi turn.turn_number) r.claims with
  | error e => rfl
  | ok results =>
    rw [M.bind_emit]
    dsimp only
    rw [M.bind_ok (m := persistFactChecks env turn.turn_number results) (a := ()) rfl]
    simp [M.pure]

theorem persistTurn_eq (env : Env) (g : GeneratedTurnData) :
    persistTurn env g =
      match env.turnInsert g.turnNumber with
      | some e =>
          ([.turnInsert g.turnNumber g.role g.turnType g.agentResponse.argument],
            .error ("Failed to insert debate turn: " ++ e))
      | none =>
          (.turnInsert g.turnNumber g.role g.turnType g.agentResponse.argument ::
              (runFactChecks env (mkTurn g) g.agentResponse).1,
            match (runFactChecks env (mkTurn g) g.agentResponse).2 with
            | .error e => .error e
            | .ok fcs => .ok (mkTurn g, fcs)) := by
  unfold persistTurn
  cases env.turnInsert g.turnNumber with
  | some e => rfl
  | none =>
    rcases hfc : runFactChecks env (mkTurn g) g.agentResponse with ⟨evs, r⟩
    cases r <;> simp [emit, M.bind, M.pure, hfc]

theorem conductParallelResearch_failure {env : Env} {role : Role} {e : String}
    (h : env.search role = .error e) (topic debateId : String) :
    conductParallelResearch env topic role debateId =
      ([.searchCall role (buildSearchQuery topic role)],
        .ok ⟨"", [], "No research context available. Please rely on general knowledge."⟩) := by
  unfold conductParallelResearch
  rw [h]
  rfl

theorem conductParallelResearch_result (env : Env) (topic : String) (role : Role)
    (debateId : String) :
    (conductParallelResearch env topic role debateId).2 = .ok (researchBundle env role) := by
  unfold conductParallelResearch researchBundle
  by_cases h : (runPerplexitySearch (env.search role)).sources.length > 0 <;>
    simp only [h, if_true, if_false] <;> rfl

/-! ## C2 — turn-type derivation -/

/-- C2: for every turn number `n ≥ 1` and `maxTurns ≥ 2`, `getTurnType`
returns `intro` when `n ≤ 2`, else `conclusion` when `n ≥ maxTurns - 1`,
else `rebuttal`; the opening-range check runs first, so for `maxTurns ≤ 3`
a turn in both ranges is classified `intro`; and the six concrete values
for `maxTurns = 6` hold. -/
theorem claim_C2 :
    (∀ n maxTurns : ℤ, 1 ≤ n → 2 ≤ maxTurns →
      getTurnType n maxTurns =
        if n ≤ 2 then .intro
        else if maxTurns - 1 ≤ n then .conclusion
        else .rebuttal)
    ∧ (∀ n maxTurns : ℤ, 1 ≤ n → 2 ≤ maxTurns → maxTurns ≤ 3 →
        n ≤ 2 → maxTurns - 1 ≤ n → getTurnType n maxTurns = .intro)
    ∧ getTurnType 1 6 = .intro ∧ getTurnType 2 6 = .intro
    ∧ getTurnType 3 6 = .rebuttal ∧ getTurnType 4 6 = .rebuttal
    ∧ getTurnType 5 6 = .conclusion ∧ getTurnType 6 6 = .conclusion := by
  refine ⟨fun n mt h1 h2 => rfl, fun n mt h1 h2 h3 h4 h5 => ?_, ?_, ?_, ?_, ?_, ?_, ?_⟩
  · unfold getTurnType; rw [if_pos h4]
  all_goals decide

/-- Witness for C2: the overlap case `n = 2`, `maxTurns = 3` is in both the
opening and the closing range and is classified `intro`. -/
theorem claim_C2_witness :
    ((1 : ℤ) ≤ 2 ∧ (2 : ℤ) ≤ 3 ∧ (3 : ℤ) ≤ 3 ∧ (2 : ℤ) ≤ 2 ∧ (3 : ℤ) - 1 ≤ 2)
      ∧ getTurnType 2 3 = .intro :=
  ⟨by decide,
   claim_C2.2.1 2 3 (by decide) (by decide) (by decide) (by decide) (by decide)⟩

/-! ## C9 — display-time estimation -/

/-- C9: `estimateDisplayTime s` equals the maximum of 15000 ms and
`(w / 150) * 60 * 1000` ms where `w` is the number of whitespace-separated
non-empty tokens of `s`; in particular it is at least 15000 for every `s`,
including the empty string. -/
theorem claim_C9 :
    (∀ s : String,
      estimateDisplayTime s = max 15000 ((wordCount s : ℚ) / 150 * 60 * 1000))
    ∧ (∀ s : String, 15000 ≤ estimateDisplayTime s)
    ∧ estimateDisplayTime "" = 15000 := by
  refine ⟨fun s => max_comm _ _, fun s => le_max_right _ _, ?_⟩
  have h0 : wordCount "" = 0 := by decide
  unfold estimateDisplayTime
  rw [h0]
  norm_num

/-! ## C7 — verification is claim-gated -/

/-- C7: for a turn whose generated response has an empty claims list, the
claim-verification collaborator is never invoked and no verdict or alert
write is issued (`runFactChecks` emits no event at all and returns `[]`);
likewise `checkClaims` is a no-op on an empty claim list. -/
theorem claim_C7 : ∀ (env : Env) (turn : Turn) (response : AgentResponse),
    response.claims = [] →
    runFactChecks env turn response = ([], .ok [])
      ∧ (∀ api, checkClaims api [] = .ok []) :=
  fun _env _turn _response h => ⟨runFactChecks_eq_nil h, fun _api => rfl⟩

/-- Witness for C7 at a concrete turn with a claim-free response. -/
theorem claim_C7_witness :
    sampleResponse.claims = []
      ∧ runFactChecks (sampleEnv 4) ⟨1, .pro, "hello world"⟩ sampleResponse = ([], .ok []) :=
  ⟨rfl, (claim_C7 (sampleEnv 4) ⟨1, .pro, "hello world"⟩ sampleResponse rfl).1⟩

/-! ## C8 — fallback records on structural parse failure -/

/-- C8: for a non-empty claim list, when the verification response fails
structural parsing (no JSON object can be decoded directly or by
extraction), `checkClaims` returns exactly one fallback record per input
claim — verdict `unverifiable`, confidence 0, `is_lie` false, no sources —
instead of dropping claims. -/
theorem claim_C8 : ∀ claims : List String, claims ≠ [] →
    checkClaims (.ok .unparseable) claims =
      .ok (claims.map fun claim =>
        { claim_text := claim
          verdict := "unverifiable"
          explanation := "Unable to verify this claim due to a processing error."
          sources := []
          confidence := 0
          is_lie := false })
    ∧ (parseResponse .unparseable claims).length = claims.length := by
  intro claims h
  constructor
  · unfold checkClaims
    rw [if_neg (by simpa [List.length_eq_zero] using h)]
    rfl
  · simp [parseResponse, buildFallbackResults]

/-- Witness for C8 on a two-claim list. -/
theorem claim_C8_witness :
    checkClaims (.ok RawResponse.unparseable) ["a", "b"] =
      .ok (["a", "b"].map fun claim =>
        { claim_text := claim
          verdict := "unverifiable"
          explanation := "Unable to verify this claim due to a processing error."
          sources := []
          confidence := 0
          is_lie := false }) :=
  (claim_C8 ["a", "b"] (by decide)).1

/-! ## C3 — lie derivation and alert issuance -/

/-- The `is_lie` flag of a normalized verdict record is exactly the
high-confidence-falsehood predicate on its own fields. -/
theorem toFactCheckResult_is_lie (c : RawClaim) :
    (toFactCheckResult c).is_lie = true ↔
      ((8 : ℚ)/10 ≤ (toFactCheckResult c).confidence
        ∧ ((toFactCheckResult c).verdict = "false"
            ∨ (toFactCheckResult c).verdict = "mostly_false")) := by
  unfold toFactCheckResult
  dsimp only
  simp [Bool.and_eq_true, decide_eq_true_iff, Bool.or_eq_true, beq_iff_eq]

/-- C3: every verdict record produced by `checkClaims` has `is_lie` true
iff its (already clamped) confidence is ≥ 0.8 and its normalized verdict is
`false` or `mostly_false`; and for every persisted verdict the write set of
`runFactChecks` contains an alert insert iff `is_lie` is true, with the
alert severity `critical` iff confidence ≥ 0.9 and `warning` otherwise. -/
theorem claim_C3 :
    (∀ (api : Except String RawResponse) (claims : List String)
        (rs : List FactCheckResult),
      checkClaims api claims = .ok rs → ∀ r ∈ rs,
        (r.is_lie = true ↔
          ((8 : ℚ)/10 ≤ r.confidence
            ∧ (r.verdict = "false" ∨ r.verdict = "mostly_false"))))
    ∧ (∀ (turnNumber : Nat) (insOk alertOk : Bool) (fc : FactCheckResult),
        ((∃ sev c aok,
            Event.alertInsert turnNumber sev c aok ∈
              factCheckWrites turnNumber insOk alertOk fc)
          ↔ (insOk = true ∧ fc.is_lie = true))
        ∧ (∀ sev c aok,
            Event.alertInsert turnNumber sev c aok ∈
              factCheckWrites turnNumber insOk alertOk fc →
            c = fc.confidence
              ∧ sev = (if (9 : ℚ)/10 ≤ fc.confidence then "critical" else "warning"))) := by
  constructor
  · intro api claims rs h r hr
    unfold checkClaims at h
    by_cases hc : claims.length = 0
    · rw [if_pos hc] at h
      obtain rfl : ([] : List FactCheckResult) = rs := Except.ok.inj h
      simp at hr
    · rw [if_neg hc] at h
      cases api with
      | error e => exact absurd h (by simp)
      | ok raw =>
        obtain rfl : parseResponse raw claims = rs := Except.ok.inj h
        cases raw with
        | unparseable =>
          obtain ⟨c, _, rfl⟩ := List.mem_map.mp hr
          constructor
          · intro hlie; exact absurd hlie (by simp [buildFallbackResults])
          · rintro ⟨habs, -⟩
            exact absurd habs (by norm_num [buildFallbackResults])
        | parsed copt =>
          obtain ⟨c, _, rfl⟩ := List.mem_map.mp hr
          exact toFactCheckResult_is_lie c
  · intro turnNumber insOk alertOk fc
    unfold factCheckWrites
    by_cases hIf : (insOk && fc.is_lie) = true
    · rw [if_pos hIf]
      obtain ⟨h1, h2⟩ : insOk = true ∧ fc.is_lie = true := by simpa using hIf
      refine ⟨⟨fun _ => ⟨h1, h2⟩, fun _ => ?_⟩, fun sev c aok hmem => ?_⟩
      · exact ⟨_, _, _, List.mem_cons_of_mem _ (List.mem_singleton.mpr rfl)⟩
      · rcases List.mem_cons.mp hmem with h | h
        · exact absurd h (by simp)
        · rw [List.mem_singleton] at h
          injection h with _ hsev hconf haok
          exact ⟨hconf, hsev⟩
    · rw [if_neg hIf]
      refine ⟨⟨fun ⟨sev, c, aok, hmem⟩ => ?_, fun ⟨h1, h2⟩ => ?_⟩, fun sev c aok hmem => ?_⟩
      · rw [List.mem_singleton] at hmem
        exact absurd hmem (by simp)
      · exact absurd (by rw [h1, h2] ; rfl) hIf
      · rw [List.mem_singleton] at hmem
        exact absurd hmem (by simp)

/-- Witness for C3: a claim judged `false` at confidence 0.85 is a lie, and
its alert write carries severity `warning` (0.85 < 0.9). -/
theorem claim_C3_witness :
    ((toFactCheckResult ⟨some "x", some "false", some "expl", some (85/100 : ℚ), none⟩).is_lie = true ↔
      ((8 : ℚ)/10 ≤ (toFactCheckResult ⟨some "x", some "false", some "expl", some (85/100 : ℚ), none⟩).confidence
        ∧ ((toFactCheckResult ⟨some "x", some "false", some "expl", some (85/100 : ℚ), none⟩).verdict = "false"
            ∨ (toFactCheckResult ⟨some "x", some "false", some "expl", some (85/100 : ℚ), none⟩).verdict = "mostly_false"))) :=
  claim_C3.1 (.ok (.parsed (some [⟨some "x", some "false", some "expl", some (85/100 : ℚ), none⟩])))
    ["x"] _ rfl _ (List.mem_singleton.mpr rfl)

/-! ## C6 — research failure is non-fatal -/

/-- C6: a throwing research lookup is absorbed: `runPerplexitySearch`
returns the empty result, `conductParallelResearch` returns (never throws)
a bundle with empty answer and empty source list and issues no document
write; and even when the lookup throws for both sides, `runDebateBody`
still issues the `live` status write, advancing past the researching
phase. -/
theorem claim_C6 :
    (∀ e, runPerplexitySearch (.error e) = ⟨"", []⟩)
    ∧ (∀ (env : Env) (topic : String) (role : Role) (debateId : String) (e : String),
        env.search role = .error e →
        conductParallelResearch env topic role debateId =
          ([.searchCall role (buildSearchQuery topic role)],
            .ok ⟨"", [], "No research context available. Please rely on general knowledge."⟩))
    ∧ (∀ (env : Env) (debateId : String) (debate : Debate) (agents : List Agent)
        (proAgent conAgent : Agent) (epro econ : String),
        env.debateLoad = .ok debate → env.agentsLoad = .ok agents →
        agents.find? (fun a => a.role == "pro") = some proAgent →
        agents.find? (fun a => a.role == "con") = some conAgent →
        env.search .pro = .error epro → env.search .con = .error econ →
        Event.statusWrite "live" (env.statusOk "live") ∈ (runDebateBody env debateId).1) := by
  refine ⟨fun e => rfl, fun env topic role debateId e h => conductParallelResearch_failure h topic debateId, ?_⟩
  intro env debateId debate agents proAgent conAgent epro econ h1 h2 h3 h4 h5 h6
  unfold runDebateBody
  rw [h1]
  dsimp only
  rw [h2]
  dsimp only
  rw [h3, h4]
  dsimp only
  rw [conductParallelResearch_failure h5 debate.topic debateId,
    conductParallelResearch_failure h6 debate.topic debateId]
  simp [updateStatus, M.bind_emit, M.bind_mk_ok, emit]

/-- Witness for C6: in the sample environment both lookups throw, yet the
`live` status write is issued. -/
theorem claim_C6_witness :
    Event.statusWrite "live" true ∈ (runDebateBody (sampleEnv 2) "debate-1").1 :=
  claim_C6.2.2 (sampleEnv 2) "debate-1" (sampleDebate 2) sampleAgents
    ⟨"agent-pro", "pro", "Pro", "persona", "alloy"⟩
    ⟨"agent-con", "con", "Con", "persona", "echo"⟩
    "down" "down" rfl rfl rfl rfl rfl rfl

/-! ## Every event of the try-block satisfies any predicate that holds of
all non-error-write events (the catch-block write is the only error write
anywhere). -/

theorem conductParallelResearch_trace_shape (env : Env) (topic : String) (role : Role)
    (debateId : String) :
    (conductParallelResearch env topic role debateId).1 =
      .searchCall role (buildSearchQuery topic role) ::
        (if (runPerplexitySearch (env.search role)).sources.length > 0 then
          [.docsInsert debateId (runPerplexitySearch (env.search role)).sources.length
            (env.docsInsertOk role)]
        else []) := by
  unfold conductParallelResearch
  by_cases h : (runPerplexitySearch (env.search role)).sources.length > 0 <;>
    simp only [h, if_true, if_false] <;> rfl

theorem runDebateBody_unfold (env : Env) (debateId : String) (debate : Debate)
    (agents : List Agent) (h1 : env.debateLoad = .ok debate)
    (h2 : env.agentsLoad = .ok agents) :
    runDebateBody env debateId =
      (match agents.find? (fun a => a.role == "pro"),
          agents.find? (fun a => a.role == "con") with
      | some proAgent, some conAgent =>
        M.bind (updateStatus env "researching") fun _ =>
        M.bind (conductParallelResearch env debate.topic .pro debateId) fun proResearch =>
        M.bind (conductParallelResearch env debate.topic .con debateId) fun conResearch =>
        M.bind (updateStatus env "live") fun _ =>
        M.bind (turnLoop env debate proAgent conAgent proResearch conResearch
          debate.config.maxTurns 1 []) fun _ =>
        runVotingAndSummary env
      | _, _ => throwErr "Debate requires both a pro and con agent") := by
  unfold runDebateBody
  rw [h1, h2]

theorem factCheckWrites_eventsP {P : Event → Prop}
    (hP : ∀ e, e.isErrorWrite = false → P e) (tn : Nat) (insOk alertOk : Bool)
    (fc : FactCheckResult) : ∀ e ∈ factCheckWrites tn insOk alertOk fc, P e := by
  intro e he
  unfold factCheckWrites at he
  rcases List.mem_cons.mp he with rfl | h
  · exact hP _ rfl
  · split at h
    · rw [List.mem_singleton] at h; subst h; exact hP _ rfl
    · simp at h

theorem conductParallelResearch_eventsP {P : Event → Prop}
    (hP : ∀ e, e.isErrorWrite = false → P e) (env : Env) (topic : String)
    (role : Role) (debateId : String) :
    EventsP P (conductParallelResearch env topic role debateId) := by
  intro e he
  rw [conductParallelResearch_trace_shape] at he
  rcases List.mem_cons.mp he with rfl | h
  · exact hP _ rfl
  · split at h
    · rw [List.mem_singleton] at h; subst h; exact hP _ rfl
    · simp at h

theorem runVotingAndSummary_eventsP {P : Event → Prop}
    (hP : ∀ e, e.isErrorWrite = false → P e) (env : Env) :
    EventsP P (runVotingAndSummary env) := by
  unfold runVotingAndSummary updateStatus
  refine EventsP.bind (EventsP.emit (hP _ rfl)) fun _ => ?_
  refine EventsP.bind (EventsP.emit (hP _ rfl)) fun _ => ?_
  refine EventsP.bind (EventsP.emit (hP _ rfl)) fun _ => ?_
  refine EventsP.bind (EventsP.emit (hP _ rfl)) fun _ => ?_
  refine EventsP.bind (EventsP.emit (hP _ rfl)) fun _ => ?_
  cases env.summaryGen with
  | error e => exact EventsP.throw _
  | ok s => exact EventsP.bind (EventsP.emit (hP _ rfl)) fun _ => EventsP.emit (hP _ rfl)

theorem generateTurn_eventsP {P : Event → Prop}
    (hP : ∀ e, e.isErrorWrite = false → P e) (env : Env) (debate : Debate)
    (agent : Agent) (role : Role) (turnNumber : Nat) (turnType : Option TurnType)
    (previousTurns : List Turn) (researchResults : ResearchResults)
    (documents : List Document) :
    EventsP P (generateTurn env debate agent role turnNumber turnType previousTurns
      researchResults documents) := by
  intro e he
  rw [generateTurn_eq] at he
  have he2 : e ∈ [Event.genCall turnNumber role (previousTurns.map Turn.turn_number)] := he
  rw [List.mem_singleton] at he2
  subst he2
  exact hP _ rfl

theorem runFactChecks_eventsP {P : Event → Prop}
    (hP : ∀ e, e.isErrorWrite = false → P e) (env : Env) (turn : Turn)
    (response : AgentResponse) : EventsP P (runFactChecks env turn response) := by
  by_cases hc : response.claims = []
  · rw [runFactChecks_eq_nil hc]
    intro e he
    simp at he
  · intro e he
    rw [runFactChecks_eq_cons hc] at he
    have he2 : e ∈ Event.verifierCall turn.turn_number response.claims ::
        (match checkClaims (env.fcApi turn.turn_number) response.claims with
        | .error _ => []
        | .ok results => (persistFactChecks env turn.turn_number results).1) := he
    rcases List.mem_cons.mp he2 with rfl | h
    · exact hP _ rfl
    · revert h
      cases checkClaims (env.fcApi turn.turn_number) response.claims with
      | error e2 => intro h; simp at h
      | ok results =>
        intro h
        simp only [persistFactChecks, List.mem_flatMap] at h
        obtain ⟨p, _, hin⟩ := h
        exact factCheckWrites_eventsP hP _ _ _ _ e hin

theorem persistTurn_eventsP {P : Event → Prop}
    (hP : ∀ e, e.isErrorWrite = false → P e) (env : Env) (g : GeneratedTurnData) :
    EventsP P (persistTurn env g) := by
  intro e he
  rw [persistTurn_eq] at he
  revert he
  cases env.turnInsert g.turnNumber with
  | some msg =>
    intro he
    have he2 : e ∈ [Event.turnInsert g.turnNumber g.role g.turnType g.agentResponse.argument] := he
    rw [List.mem_singleton] at he2
    subst he2
    exact hP _ rfl
  | none =>
    intro he
    have he2 : e ∈ Event.turnInsert g.turnNumber g.role g.turnType g.agentResponse.argument ::
        (runFactChecks env (mkTurn g) g.agentResponse).1 := he
    rcases List.mem_cons.mp he2 with rfl | h
    · exact hP _ rfl
    · exact runFactChecks_eventsP hP env (mkTurn g) g.agentResponse e h

theorem runPair_eventsP {P : Event → Prop}
    (hP : ∀ e, e.isErrorWrite = false → P e) (env : Env) (debate : Debate)
    (proAgent conAgent : Agent) (proResearch conResearch : ResearchResults)
    (maxTurns pairStart : Nat) (allTurns : List Turn) :
    EventsP P (runPair env debate proAgent conAgent proResearch conResearch
      maxTurns pairStart allTurns) := by
  unfold runPair loadDocuments
  refine EventsP.bind (EventsP.bind (EventsP.emit (hP _ rfl)) fun _ => EventsP.pure _)
    fun documents => ?_
  by_cases hit : getTurnType (pairStart : ℤ) (maxTurns : ℤ) = .intro
  · rw [if_pos hit]
    refine EventsP.bind (generateTurn_eventsP hP _ _ _ _ _ _ _ _ _) fun proGen => ?_
    refine EventsP.bind ?_ fun conGen => ?_
    · by_cases hcon : pairStart + 1 ≤ maxTurns
      · rw [if_pos hcon]
        exact EventsP.bind (generateTurn_eventsP hP _ _ _ _ _ _ _ _ _) fun g => EventsP.pure _
      · rw [if_neg hcon]
        exact EventsP.pure _
    · refine EventsP.bind (persistTurn_eventsP hP _ _) fun proResult => ?_
      cases conGen with
      | some cg =>
        exact EventsP.bind (EventsP.emit (hP _ rfl)) fun _ =>
          EventsP.bind (persistTurn_eventsP hP _ _) fun _ => EventsP.pure _
      | none => exact EventsP.pure _
  · rw [if_neg hit]
    refine EventsP.bind (generateTurn_eventsP hP _ _ _ _ _ _ _ _ _) fun proGen => ?_
    refine EventsP.bind (persistTurn_eventsP hP _ _) fun proResult => ?_
    by_cases hcon : pairStart + 1 ≤ maxTurns
    · rw [if_pos hcon]
      refine EventsP.bind (generateTurn_eventsP hP _ _ _ _ _ _ _ _ _) fun conGen => ?_
      exact EventsP.bind (EventsP.emit (hP _ rfl)) fun _ =>
        EventsP.bind (persistTurn_eventsP hP _ _) fun _ => EventsP.pure _
    · rw [if_neg hcon]
      exact EventsP.pure _

theorem turnLoop_eventsP {P : Event → Prop}
    (hP : ∀ e, e.isErrorWrite = false → P e) (env : Env) (debate : Debate)
    (proAgent conAgent : Agent) (proResearch conResearch : ResearchResults) :
    ∀ (k maxTurns pairStart : Nat) (allTurns : List Turn),
      maxTurns + 1 - pairStart ≤ k →
      EventsP P (turnLoop env debate proAgent conAgent proResearch conResearch
        maxTurns pairStart allTurns) := by
  intro k
  induction k with
  | zero =>
    intro mt p acc h
    rw [turnLoop]
    rw [if_neg (by omega)]
    exact EventsP.pure _
  | succ n ih =>
    intro mt p acc h
    rw [turnLoop]
    by_cases hle : p ≤ mt
    · rw [if_pos hle]
      exact EventsP.bind (runPair_eventsP hP _ _ _ _ _ _ _ _ _)
        fun turns => ih mt (p + 2) turns (by omega)
    · rw [if_neg hle]
      exact EventsP.pure _

theorem runDebateBody_eventsP {P : Event → Prop}
    (hP : ∀ e, e.isErrorWrite = false → P e) (env : Env) (debateId : String) :
    EventsP P (runDebateBody env debateId) := by
  cases h1 : env.debateLoad with
  | error e =>
    unfold runDebateBody
    rw [h1]
    exact EventsP.throw _
  | ok debate =>
  cases h2 : env.agentsLoad with
  | error e =>
    unfold runDebateBody
    rw [h1, h2]
    exact EventsP.throw _
  | ok agents =>
  rw [runDebateBody_unfold env debateId debate agents h1 h2]
  cases agents.find? (fun a => a.role == "pro") with
  | none => exact EventsP.throw _
  | some proAgent =>
  cases agents.find? (fun a => a.role == "con") with
  | none => exact EventsP.throw _
  | some conAgent =>
  refine EventsP.bind (EventsP.emit (hP _ rfl)) fun _ => ?_
  refine EventsP.bind (conductParallelResearch_eventsP hP _ _ _ _) fun proResearch => ?_
  refine EventsP.bind (conductParallelResearch_eventsP hP _ _ _ _) fun conResearch => ?_
  refine EventsP.bind (EventsP.emit (hP _ rfl)) fun _ => ?_
  refine EventsP.bind (turnLoop_eventsP hP _ _ _ _ _ _
    (debate.config.maxTurns + 1 - 1) _ _ _ (le_refl _)) fun _ => ?_
  exact runVotingAndSummary_eventsP hP env

/-! ## C4 — the single top-level catch -/

/-- C4: whenever the try-block of `runDebate` throws, the error is caught
exactly once at the top level: `runDebate` returns normally with the body
trace extended by a single debate update forcing status `completed` with
the `[ERROR]` marker in the description; that write is the only error write
of the whole trace, and the last status written is `completed` — a failing
run never leaves the debate in a non-terminal status. -/
theorem claim_C4 : ∀ (env : Env) (debateId msg : String),
    (runDebateBody env debateId).2 = .error msg →
    runDebate env debateId =
        (runDebateBody env debateId).1 ++ [.errorWrite ("[ERROR] " ++ msg) env.errWriteOk]
      ∧ (runDebate env debateId).filter (fun e => e.isErrorWrite) =
          [.errorWrite ("[ERROR] " ++ msg) env.errWriteOk]
      ∧ lastStatusSet (runDebate env debateId) = some "completed" := by
  intro env debateId msg h
  have hsplit : runDebate env debateId =
      (runDebateBody env debateId).1 ++ [.errorWrite ("[ERROR] " ++ msg) env.errWriteOk] := by
    unfold runDebate
    rcases hb : runDebateBody env debateId with ⟨evs, r⟩
    rw [hb] at h
    obtain rfl : r = .error msg := h
    rfl
  refine ⟨hsplit, ?_, ?_⟩
  · rw [hsplit, List.filter_append]
    have hnone : (runDebateBody env debateId).1.filter (fun e => e.isErrorWrite) = [] := by
      rw [List.filter_eq_nil_iff]
      intro a ha
      have hfalse := runDebateBody_eventsP (P := fun e => e.isErrorWrite = false)
        (fun e hce => hce) env debateId a ha
      simp [hfalse]
    rw [hnone]
    simp [Event.isErrorWrite]
  · rw [hsplit]
    unfold lastStatusSet
    rw [List.filterMap_append]
    simp [Event.statusSet]

/-- Witness for C4: with a failing debate load the body throws, and the
trace of `runDebate` ends with the forced-`completed` error write. -/
theorem claim_C4_witness :
    (runDebateBody failingEnv "debate-1").2 = .error "Failed to load debate debate-1: boom"
      ∧ lastStatusSet (runDebate failingEnv "debate-1") = some "completed" :=
  ⟨rfl, (claim_C4 failingEnv "debate-1" "Failed to load debate debate-1: boom" rfl).2.2⟩

/-! ## C10 — status-write failures are non-fatal and invisible to control
flow -/

theorem withStatusOk_debateLoad (env : Env) (f : String → Bool) :
    (env.withStatusOk f).debateLoad = env.debateLoad := rfl

theorem withStatusOk_agentsLoad (env : Env) (f : String → Bool) :
    (env.withStatusOk f).agentsLoad = env.agentsLoad := rfl

theorem withStatusOk_summaryGen (env : Env) (f : String → Bool) :
    (env.withStatusOk f).summaryGen = env.summaryGen := rfl

theorem withStatusOk_summaryInsertOk (env : Env) (f : String → Bool) :
    (env.withStatusOk f).summaryInsertOk = env.summaryInsertOk := rfl

theorem withStatusOk_research (env : Env) (f : String → Bool) (topic : String)
    (role : Role) (debateId : String) :
    conductParallelResearch (env.withStatusOk f) topic role debateId =
      conductParallelResearch env topic role debateId := rfl

theorem withStatusOk_runPair (env : Env) (f : String → Bool) (debate : Debate)
    (proAgent conAgent : Agent) (proResearch conResearch : ResearchResults)
    (maxTurns pairStart : Nat) (allTurns : List Turn) :
    runPair (env.withStatusOk f) debate proAgent conAgent proResearch conResearch
        maxTurns pairStart allTurns =
      runPair env debate proAgent conAgent proResearch conResearch
        maxTurns pairStart allTurns := rfl

theorem withStatusOk_turnLoop (env : Env) (f : String → Bool) (debate : Debate)
    (proAgent conAgent : Agent) (proResearch conResearch : ResearchResults) :
    ∀ (k maxTurns pairStart : Nat) (allTurns : List Turn),
      maxTurns + 1 - pairStart ≤ k →
      turnLoop (env.withStatusOk f) debate proAgent conAgent proResearch conResearch
          maxTurns pairStart allTurns =
        turnLoop env debate proAgent conAgent proResearch conResearch
          maxTurns pairStart allTurns := by
  intro k
  induction k with
  | zero =>
    intro mt p acc h
    rw [turnLoop, turnLoop, if_neg (by omega), if_neg (by omega)]
  | succ n ih =>
    intro mt p acc h
    rw [turnLoop, turnLoop]
    by_cases hle : p ≤ mt
    · rw [if_pos hle, if_pos hle, withStatusOk_runPair]
      exact congrArg _ (funext fun turns => ih mt (p + 2) turns (by omega))
    · rw [if_neg hle, if_neg hle]

theorem scrubStatus_append (a b : List Event) :
    scrubStatus (a ++ b) = scrubStatus a ++ scrubStatus b :=
  List.map_append _ _ _

theorem MEquiv.refl {α : Type} (m : M α) : MEquiv m m := ⟨rfl, rfl⟩

theorem MEquiv.bind_congr {α β : Type} {m₁ m₂ : M α} {f₁ f₂ : α → M β}
    (hm : MEquiv m₁ m₂) (hf : ∀ a, MEquiv (f₁ a) (f₂ a)) :
    MEquiv (M.bind m₁ f₁) (M.bind m₂ f₂) := by
  obtain ⟨hr, ht⟩ := hm
  rcases m₁ with ⟨e1, r1⟩
  rcases m₂ with ⟨e2, r2⟩
  dsimp only at hr ht
  subst hr
  cases r1 with
  | error e => exact ⟨rfl, ht⟩
  | ok a =>
    refine ⟨(hf a).1, ?_⟩
    show scrubStatus (e1 ++ (f₁ a).1) = scrubStatus (e2 ++ (f₂ a).1)
    rw [scrubStatus_append, scrubStatus_append, ht, (hf a).2]

theorem updateStatus_withStatusOk (env : Env) (f : String → Bool) (s : String) :
    MEquiv (updateStatus (env.withStatusOk f) s) (updateStatus env s) :=
  ⟨rfl, by simp [updateStatus, emit, scrubStatus]⟩

theorem withStatusOk_votingAndSummary (env : Env) (f : String → Bool) :
    MEquiv (runVotingAndSummary (env.withStatusOk f)) (runVotingAndSummary env) := by
  unfold runVotingAndSummary
  refine MEquiv.bind_congr (updateStatus_withStatusOk env f "voting") fun _ => ?_
  refine MEquiv.bind_congr (MEquiv.refl _) fun _ => ?_
  refine MEquiv.bind_congr (updateStatus_withStatusOk env f "summarizing") fun _ => ?_
  refine MEquiv.bind_congr (MEquiv.refl _) fun _ => ?_
  refine MEquiv.bind_congr (MEquiv.refl _) fun _ => ?_
  rw [withStatusOk_summaryGen]
  cases env.summaryGen with
  | error e => exact MEquiv.refl _
  | ok s =>
    rw [withStatusOk_summaryInsertOk]
    exact MEquiv.bind_congr (MEquiv.refl _) fun _ => updateStatus_withStatusOk env f "completed"

/-- C10: a failed status write is absorbed — `updateStatus` always returns
normally; replacing the status-write success assignment of the environment
(in particular making every status write fail) changes neither the result
of the try-block (no failure edge is ever triggered by a status write) nor
its trace up to the write-ack flags, so the turn loop, the voting window
and the summary synthesis still execute identically. -/
theorem claim_C10 : ∀ (env : Env) (f : String → Bool) (debateId : String),
    (∀ (env2 : Env) (status : String), (updateStatus env2 status).2 = .ok ())
    ∧ (runDebateBody (env.withStatusOk f) debateId).2 = (runDebateBody env debateId).2
    ∧ scrubStatus (runDebateBody (env.withStatusOk f) debateId).1 =
        scrubStatus (runDebateBody env debateId).1 := by
  intro env f debateId
  have hequiv : MEquiv (runDebateBody (env.withStatusOk f) debateId)
      (runDebateBody env debateId) := by
    cases h1 : env.debateLoad with
    | error e =>
      unfold runDebateBody
      rw [withStatusOk_debateLoad, h1]
      exact MEquiv.refl _
    | ok debate =>
    cases h2 : env.agentsLoad with
    | error e =>
      unfold runDebateBody
      rw [withStatusOk_debateLoad, withStatusOk_agentsLoad, h1, h2]
      exact MEquiv.refl _
    | ok agents =>
    rw [runDebateBody_unfold (env.withStatusOk f) debateId debate agents
        (by rw [withStatusOk_debateLoad, h1]) (by rw [withStatusOk_agentsLoad, h2]),
      runDebateBody_unfold env debateId debate agents h1 h2]
    cases agents.find? (fun a => a.role == "pro") with
    | none => exact MEquiv.refl _
    | some proAgent =>
    cases agents.find? (fun a => a.role == "con") with
    | none => exact MEquiv.refl _
    | some conAgent =>
    refine MEquiv.bind_congr (updateStatus_withStatusOk env f "researching") fun _ => ?_
    rw [withStatusOk_research]
    refine MEquiv.bind_congr (MEquiv.refl _) fun proResearch => ?_
    rw [withStatusOk_research]
    refine MEquiv.bind_congr (MEquiv.refl _) fun conResearch => ?_
    refine MEquiv.bind_congr (updateStatus_withStatusOk env f "live") fun _ => ?_
    rw [withStatusOk_turnLoop env f debate proAgent conAgent proResearch conResearch
      (debate.config.maxTurns + 1 - 1) debate.config.maxTurns 1 [] (le_refl _)]
    refine MEquiv.bind_congr (MEquiv.refl _) fun _ => ?_
    exact withStatusOk_votingAndSummary env f
  exact ⟨fun env2 status => rfl, hequiv.1, hequiv.2⟩

/-! ## C1 — the persisted turn sequence of a successful run -/

theorem M.bind_ok_elim {α β : Type} {m : M α} {f : α → M β} {b : β}
    (h : (M.bind m f).2 = .ok b) :
    ∃ a, m.2 = .ok a ∧ (f a).2 = .ok b ∧ (M.bind m f).1 = m.1 ++ (f a).1 := by
  obtain ⟨a, h1, h2⟩ := M.bind_result_ok h
  exact ⟨a, h1, h2, by rw [M.bind_ok h1]⟩

theorem updateStatus_eq (env : Env) (s : String) :
    updateStatus env s = emit (.statusWrite s (env.statusOk s)) := rfl

theorem loadDocuments_eq (env : Env) (pairStart : Nat) :
    loadDocuments env pairStart = ([.docsLoad pairStart], .ok (env.documents pairStart)) := rfl

theorem persistsOf_append (a b : List Event) :
    persistsOf (a ++ b) = persistsOf a ++ persistsOf b :=
  List.filterMap_append a b toPersist

theorem persistsOf_cons_none {e : Event} (h : toPersist e = none) (l : List Event) :
    persistsOf (e :: l) = persistsOf l :=
  List.filterMap_cons_none h

theorem persistsOf_cons_docsLoad (p : Nat) (l : List Event) :
    persistsOf (.docsLoad p :: l) = persistsOf l :=
  List.filterMap_cons_none rfl

theorem persistsOf_cons_delay (q : ℚ) (l : List Event) :
    persistsOf (.delayStep q :: l) = persistsOf l :=
  List.filterMap_cons_none rfl

theorem persistsOf_cons_verifier (n : Nat) (cs : List String) (l : List Event) :
    persistsOf (.verifierCall n cs :: l) = persistsOf l :=
  List.filterMap_cons_none rfl

theorem persistsOf_pure {α : Type} (a : α) : persistsOf (M.pure a).1 = [] := rfl

theorem persistsOf_cons_turnInsert (n : Nat) (r : Role) (tt : TurnType) (c : String)
    (l : List Event) :
    persistsOf (.turnInsert n r tt c :: l) = (n, r) :: persistsOf l :=
  List.filterMap_cons_some rfl

theorem generateTurn_persists (env : Env) (debate : Debate) (agent : Agent)
    (role : Role) (turnNumber : Nat) (turnType : Option TurnType)
    (previousTurns : List Turn) (researchResults : ResearchResults)
    (documents : List Document) :
    persistsOf (generateTurn env debate agent role turnNumber turnType previousTurns
      researchResults documents).1 = [] := by
  unfold generateTurn
  cases env.gen turnNumber <;> rfl

theorem generateTurn_ok {env : Env} {debate : Debate} {agent : Agent} {role : Role}
    {turnNumber : Nat} {turnType : Option TurnType} {previousTurns : List Turn}
    {researchResults : ResearchResults} {documents : List Document}
    {g : GeneratedTurnData}
    (h : (generateTurn env debate agent role turnNumber turnType previousTurns
      researchResults documents).2 = .ok g) :
    g.turnNumber = turnNumber ∧ g.role = role := by
  rw [generateTurn_eq] at h
  revert h
  cases env.gen turnNumber with
  | error e => intro h; exact absurd h (by simp)
  | ok response =>
    intro h
    obtain rfl := Except.ok.inj h
    exact ⟨rfl, rfl⟩

theorem persistFactChecks_persists (env : Env) (tn : Nat)
    (results : List FactCheckResult) :
    persistsOf (persistFactChecks env tn results).1 = [] := by
  unfold persistsOf
  rw [List.filterMap_eq_nil_iff]
  intro e he
  simp only [persistFactChecks, List.mem_flatMap] at he
  obtain ⟨pr, _, hin⟩ := he
  unfold factCheckWrites at hin
  rcases List.mem_cons.mp hin with rfl | h
  · rfl
  · split at h
    · rw [List.mem_singleton] at h; subst h; rfl
    · simp at h

theorem runFactChecks_persists (env : Env) (turn : Turn) (response : AgentResponse) :
    persistsOf (runFactChecks env turn response).1 = [] := by
  by_cases hc : response.claims = []
  · rw [runFactChecks_eq_nil hc]
    rfl
  · rw [runFactChecks_eq_cons hc]
    dsimp only
    cases checkClaims (env.fcApi turn.turn_number) response.claims with
    | error e => rfl
    | ok results =>
      rw [persistsOf_cons_verifier]
      exact persistFactChecks_persists env turn.turn_number results

theorem persistTurn_persists {env : Env} {g : GeneratedTurnData}
    {res : Turn × List FactCheckResult}
    (h : (persistTurn env g).2 = .ok res) :
    persistsOf (persistTurn env g).1 = [(g.turnNumber, g.role)] := by
  have heq := persistTurn_eq env g
  rw [heq] at h ⊢
  revert h
  cases env.turnInsert g.turnNumber with
  | some e => intro h; exact absurd h (by simp)
  | none =>
    intro h
    dsimp only
    rw [persistsOf_cons_turnInsert, runFactChecks_persists]

theorem runPair_persists (env : Env) (debate : Debate) (proAgent conAgent : Agent)
    (proResearch conResearch : ResearchResults) (maxTurns pairStart : Nat)
    (allTurns : List Turn) (res : List Turn)
    (hok : (runPair env debate proAgent conAgent proResearch conResearch
      maxTurns pairStart allTurns).2 = .ok res) :
    persistsOf (runPair env debate proAgent conAgent proResearch conResearch
        maxTurns pairStart allTurns).1 =
      (pairStart, Role.pro) ::
        (if pairStart + 1 ≤ maxTurns then [(pairStart + 1, Role.con)] else []) := by
  unfold runPair at hok ⊢
  rw [loadDocuments_eq, M.bind_mk_ok] at hok ⊢
  try dsimp only at hok ⊢
  by_cases hit : getTurnType (pairStart : ℤ) (maxTurns : ℤ) = .intro
  · rw [if_pos hit] at hok ⊢
    obtain ⟨proG, hg, hok2, htr⟩ := M.bind_ok_elim hok
    rw [htr]
    try dsimp only at hok2 ⊢
    obtain ⟨hnum, hrole⟩ := generateTurn_ok hg
    by_cases hcon : pairStart + 1 ≤ maxTurns
    · rw [if_pos hcon] at hok2 ⊢
      obtain ⟨conGopt, hcg, hok3, htr2⟩ := M.bind_ok_elim hok2
      rw [htr2]
      obtain ⟨conG, hcg1, hcg2, htr3⟩ := M.bind_ok_elim hcg
      obtain rfl : some conG = conGopt := Except.ok.inj hcg2
      obtain ⟨hnum2, hrole2⟩ := generateTurn_ok hcg1
      try dsimp only at hok3 ⊢
      obtain ⟨proRes, hpp, hok4, htr4⟩ := M.bind_ok_elim hok3
      rw [htr4]
      try dsimp only at hok4 ⊢
      rw [M.bind_emit] at hok4 ⊢
      try dsimp only at hok4 ⊢
      obtain ⟨conRes, hcp, hok5, htr5⟩ := M.bind_ok_elim hok4
      rw [htr3, htr5]
      simp [List.singleton_append, persistsOf_append, persistsOf_cons_docsLoad,
        persistsOf_cons_delay, persistsOf_pure, generateTurn_persists,
        persistTurn_persists hpp, persistTurn_persists hcp, hnum, hrole,
        hnum2, hrole2, hcon]
    · rw [if_neg hcon] at hok2 ⊢
      obtain ⟨conGopt, hcg, hok3, htr2⟩ := M.bind_ok_elim hok2
      rw [htr2]
      obtain rfl : (none : Option GeneratedTurnData) = conGopt := Except.ok.inj hcg
      try dsimp only at hok3 ⊢
      obtain ⟨proRes, hpp, hok4, htr4⟩ := M.bind_ok_elim hok3
      rw [htr4]
      simp [List.singleton_append, persistsOf_append, persistsOf_cons_docsLoad,
        persistsOf_pure, generateTurn_persists, persistTurn_persists hpp,
        hnum, hrole, hcon]
  · rw [if_neg hit] at hok ⊢
    obtain ⟨proG, hg, hok2, htr⟩ := M.bind_ok_elim hok
    rw [htr]
    try dsimp only at hok2 ⊢
    obtain ⟨hnum, hrole⟩ := generateTurn_ok hg
    obtain ⟨proRes, hpp, hok3, htr2⟩ := M.bind_ok_elim hok2
    rw [htr2]
    try dsimp only at hok3 ⊢
    by_cases hcon : pairStart + 1 ≤ maxTurns
    · rw [if_pos hcon] at hok3 ⊢
      obtain ⟨conG, hcg, hok4, htr3⟩ := M.bind_ok_elim hok3
      rw [htr3]
      obtain ⟨hnum2, hrole2⟩ := generateTurn_ok hcg
      try dsimp only at hok4 ⊢
      rw [M.bind_emit] at hok4 ⊢
      try dsimp only at hok4 ⊢
      obtain ⟨conRes, hcp, hok5, htr4⟩ := M.bind_ok_elim hok4
      rw [htr4]
      simp [List.singleton_append, persistsOf_append, persistsOf_cons_docsLoad,
        persistsOf_cons_delay, persistsOf_pure, generateTurn_persists,
        persistTurn_persists hpp, persistTurn_persists hcp, hnum, hrole,
        hnum2, hrole2, hcon]
    · rw [if_neg hcon] at hok3 ⊢
      simp [List.singleton_append, persistsOf_append, persistsOf_cons_docsLoad,
        persistsOf_pure, generateTurn_persists, persistTurn_persists hpp,
        hnum, hrole, hcon]

theorem turnLoop_persists (env : Env) (debate : Debate) (proAgent conAgent : Agent)
    (proResearch conResearch : ResearchResults) :
    ∀ (k maxTurns pairStart : Nat) (allTurns res : List Turn),
      maxTurns + 1 - pairStart ≤ k → pairStart % 2 = 1 →
      (turnLoop env debate proAgent conAgent proResearch conResearch
        maxTurns pairStart allTurns).2 = .ok res →
      persistsOf (turnLoop env debate proAgent conAgent proResearch conResearch
          maxTurns pairStart allTurns).1 =
        (List.range' pairStart (maxTurns + 1 - pairStart)).map
          (fun n => (n, if n % 2 = 1 then Role.pro else Role.con)) := by
  intro k
  induction k with
  | zero =>
    intro mt p acc res hk hodd hok
    rw [turnLoop, if_neg (by omega)]
    have h0 : mt + 1 - p = 0 := by omega
    rw [h0]
    rfl
  | succ n ih =>
    intro mt p acc res hk hodd hok
    rw [turnLoop] at hok ⊢
    by_cases hle : p ≤ mt
    · rw [if_pos hle] at hok ⊢
      obtain ⟨turns, hp1, hp2, htr⟩ := M.bind_ok_elim hok
      rw [htr, persistsOf_append,
        runPair_persists env debate proAgent conAgent proResearch conResearch
          mt p acc turns hp1,
        ih mt (p + 2) turns res (by omega) (by omega) hp2]
      by_cases hcon : p + 1 ≤ mt
      · rw [if_pos hcon]
        have h1 : mt + 1 - p = (mt + 1 - (p + 2)) + 1 + 1 := by omega
        rw [h1, List.range'_succ, List.range'_succ]
        have hodd2 : ¬ (p + 1) % 2 = 1 := by omega
        simp [hodd, hodd2]
      · rw [if_neg hcon]
        have h1 : mt + 1 - p = 1 := by omega
        have h2 : mt + 1 - (p + 2) = 0 := by omega
        rw [h1, h2, List.range'_succ]
        simp [hodd]
    · rw [if_neg hle] at hok ⊢
      have h0 : mt + 1 - p = 0 := by omega
      rw [h0]
      rfl

theorem persistsOf_cons_status (s : String) (ok : Bool) (l : List Event) :
    persistsOf (.statusWrite s ok :: l) = persistsOf l :=
  List.filterMap_cons_none rfl

theorem conductParallelResearch_persists (env : Env) (topic : String) (role : Role)
    (debateId : String) :
    persistsOf (conductParallelResearch env topic role debateId).1 = [] := by
  rw [conductParallelResearch_trace_shape]
  split <;> rfl

theorem runVotingAndSummary_persists (env : Env) :
    persistsOf (runVotingAndSummary env).1 = [] := by
  unfold runVotingAndSummary updateStatus
  cases env.summaryGen with
  | error e => rfl
  | ok s => rfl

theorem runDebateBody_shape (env : Env) (debateId : String) (debate : Debate)
    (agents : List Agent) (proAgent conAgent : Agent)
    (h1 : env.debateLoad = .ok debate) (h2 : env.agentsLoad = .ok agents)
    (h3 : agents.find? (fun a => a.role == "pro") = some proAgent)
    (h4 : agents.find? (fun a => a.role == "con") = some conAgent) :
    runDebateBody env debateId =
      (.statusWrite "researching" (env.statusOk "researching") ::
        ((conductParallelResearch env debate.topic .pro debateId).1 ++
          ((conductParallelResearch env debate.topic .con debateId).1 ++
            (.statusWrite "live" (env.statusOk "live") ::
              (M.bind (turnLoop env debate proAgent conAgent (researchBundle env .pro)
                (researchBundle env .con) debate.config.maxTurns 1 [])
                fun _ => runVotingAndSummary env).1))),
        (M.bind (turnLoop env debate proAgent conAgent (researchBundle env .pro)
          (researchBundle env .con) debate.config.maxTurns 1 [])
          fun _ => runVotingAndSummary env).2) := by
  rw [runDebateBody_unfold env debateId debate agents h1 h2, h3, h4]
  show M.bind (emit _) _ = _
  rw [M.bind_emit]
  try dsimp only
  rw [M.bind_ok (conductParallelResearch_result env debate.topic .pro debateId)]
  try dsimp only
  rw [M.bind_ok (conductParallelResearch_result env debate.topic .con debateId)]
  try dsimp only
  rw [updateStatus_eq, M.bind_emit]
  try dsimp only
  try rfl

/-- C1: a successful run with `maxTurns ≥ 2` issues exactly `maxTurns`
turn-insert writes, numbered `1..maxTurns` with no gaps, in strictly
increasing order, with the pro agent on every odd and the con agent on
every even turn number (covering the odd-`maxTurns` case, where the final
pair has no con turn). -/
theorem claim_C1 : ∀ (env : Env) (debateId : String) (debate : Debate),
    env.debateLoad = .ok debate → 2 ≤ debate.config.maxTurns →
    (runDebateBody env debateId).2 = .ok () →
    (persistsOf (runDebate env debateId)).map Prod.fst =
        List.range' 1 debate.config.maxTurns
      ∧ (persistsOf (runDebate env debateId)).length = debate.config.maxTurns
      ∧ (∀ pr ∈ persistsOf (runDebate env debateId), (pr.1 % 2 = 1 ↔ pr.2 = Role.pro))
      ∧ List.Chain' (fun a b => a < b)
          ((persistsOf (runDebate env debateId)).map Prod.fst) := by
  intro env debateId debate h1 hmt hok
  have hrd : runDebate env debateId = (runDebateBody env debateId).1 := by
    unfold runDebate
    rcases hb : runDebateBody env debateId with ⟨evs, r⟩
    rw [hb] at hok
    obtain rfl : r = .ok () := hok
    rfl
  cases h2 : env.agentsLoad with
  | error e =>
    exfalso
    unfold runDebateBody at hok
    rw [h1, h2] at hok
    exact Except.noConfusion hok
  | ok agents =>
  cases h3 : agents.find? (fun a => a.role == "pro") with
  | none =>
    exfalso
    rw [runDebateBody_unfold env debateId debate agents h1 h2, h3] at hok
    exact Except.noConfusion hok
  | some proAgent =>
  cases h4 : agents.find? (fun a => a.role == "con") with
  | none =>
    exfalso
    rw [runDebateBody_unfold env debateId debate agents h1 h2, h3, h4] at hok
    exact Except.noConfusion hok
  | some conAgent =>
  have hshape := runDebateBody_shape env debateId debate agents proAgent conAgent h1 h2 h3 h4
  rw [hshape] at hok
  dsimp only at hok
  obtain ⟨lres, hloop, htail, htr⟩ := M.bind_ok_elim hok
  have hpl := turnLoop_persists env debate proAgent conAgent
    (researchBundle env .pro) (researchBundle env .con)
    (debate.config.maxTurns + 1 - 1) debate.config.maxTurns 1 [] lres
    (le_refl _) rfl hloop
  have hone : debate.config.maxTurns + 1 - 1 = debate.config.maxTurns := by omega
  rw [hone] at hpl
  have hmain : persistsOf (runDebate env debateId) =
      (List.range' 1 debate.config.maxTurns).map
        (fun n => (n, if n % 2 = 1 then Role.pro else Role.con)) := by
    rw [hrd, hshape]
    dsimp only
    rw [htr]
    rw [persistsOf_cons_status, persistsOf_append, persistsOf_append,
      conductParallelResearch_persists, conductParallelResearch_persists,
      persistsOf_cons_status, persistsOf_append, hpl,
      runVotingAndSummary_persists, List.append_nil, List.nil_append,
      List.nil_append]
  have hcomp : (Prod.fst ∘ fun n => (n, if n % 2 = 1 then Role.pro else Role.con)) =
      fun n : Nat => n := funext fun n => rfl
  refine ⟨?_, ?_, ?_, ?_⟩
  · rw [hmain, List.map_map, hcomp, List.map_id']
  · rw [hmain]
    simp
  · rw [hmain]
    intro pr hpr
    obtain ⟨n, hn, rfl⟩ := List.mem_map.mp hpr
    by_cases h : n % 2 = 1
    · simp [h]
    · simp [h]
  · rw [hmain, List.map_map, hcomp, List.map_id']
    rw [List.chain'_iff_pairwise]
    exact List.pairwise_lt_range' 1 debate.config.maxTurns

theorem sampleEnv_body_ok : (runDebateBody (sampleEnv 5) "debate-1").2 = .ok () := by
  simp [runDebateBody, sampleEnv, sampleDebate, sampleAgents, sampleResponse,
    turnLoop, runPair, updateStatus, loadDocuments, conductParallelResearch,
    runPerplexitySearch, buildCombinedContext, buildSearchQuery, generateTurn,
    persistTurn, runFactChecks, persistFactChecks, checkClaims, parseResponse,
    mkTurn, runVotingAndSummary, emit, M.bind, M.pure, throwErr, getTurnType,
    estimateDisplayTime, wordCount, countTokens, List.find?]

/-- Witness for C1 at `maxTurns = 5` (odd, so the final pair has no con
turn): a successful sample run persists turns `1..5`. -/
theorem claim_C1_witness :
    2 ≤ (sampleDebate 5).config.maxTurns
      ∧ (persistsOf (runDebate (sampleEnv 5) "debate-1")).map Prod.fst = List.range' 1 5
      ∧ (persistsOf (runDebate (sampleEnv 5) "debate-1")).length = 5 :=
  ⟨by norm_num [sampleDebate],
   (claim_C1 (sampleEnv 5) "debate-1" (sampleDebate 5) rfl (by norm_num [sampleDebate])
     sampleEnv_body_ok).1,
   (claim_C1 (sampleEnv 5) "debate-1" (sampleDebate 5) rfl (by norm_num [sampleDebate])
     sampleEnv_body_ok).2.1⟩

/-! ## C5 — generation/persistence dependency discipline: scan lemmas -/

theorem M.bind_assoc {α β γ : Type} (m : M α) (f : α → M β) (g : β → M γ) :
    M.bind (M.bind m f) g = M.bind m fun a => M.bind (f a) g := by
  rcases m with ⟨evs, r⟩
  cases r with
  | error e => rfl
  | ok a =>
    rcases hf : f a with ⟨evs2, r2⟩
    cases r2 <;> simp [M.bind, hf, List.append_assoc]

theorem EventsP.bind_restricted {P : Event → Prop} {α β : Type} {m : M α}
    {f : α → M β} (hm : EventsP P m)
    (hf : ∀ a, m.2 = .ok a → EventsP P (f a)) : EventsP P (M.bind m f) := by
  rcases m with ⟨evs, r⟩
  cases r with
  | error e => exact hm
  | ok a =>
    intro e he
    rcases List.mem_append.mp he with h | h
    · exact hm e h
    · exact hf a rfl e h

theorem insAfter_append (a b : List Event) (st : List Nat) :
    insAfter (a ++ b) st = insAfter b (insAfter a st) := by
  induction a generalizing st with
  | nil => rfl
  | cons e rest ih => cases e <;> simp [insAfter, ih]

theorem depScan_append (mt : Nat) (a b : List Event) (st : List Nat) :
    depScan mt (a ++ b) st = (depScan mt a st && depScan mt b (insAfter a st)) := by
  induction a generalizing st with
  | nil => simp [depScan, insAfter]
  | cons e rest ih =>
    cases e with
    | genCall m r h =>
      cases r with
      | pro => simp [depScan, insAfter, ih]
      | con => simp [depScan, insAfter, ih, Bool.and_assoc]
    | turnInsert n r tt c => simp [depScan, insAfter, ih]
    | statusWrite s ok => simp [depScan, insAfter, ih]
    | errorWrite d ok => simp [depScan, insAfter, ih]
    | searchCall r q => simp [depScan, insAfter, ih]
    | docsInsert i n ok => simp [depScan, insAfter, ih]
    | docsLoad p => simp [depScan, insAfter, ih]
    | verifierCall n cs => simp [depScan, insAfter, ih]
    | fcInsert n fc ok => simp [depScan, insAfter, ih]
    | alertInsert n s c ok => simp [depScan, insAfter, ih]
    | delayStep ms => simp [depScan, insAfter, ih]
    | votesRead => simp [depScan, insAfter, ih]
    | summaryCall => simp [depScan, insAfter, ih]
    | summaryInsert ok => simp [depScan, insAfter, ih]

theorem mem_insAfter_iff (x : Nat) :
    ∀ (evs : List Event) (st : List Nat),
      x ∈ insAfter evs st ↔
        (x ∈ st ∨ ∃ r tt c, Event.turnInsert x r tt c ∈ evs) := by
  intro evs
  induction evs with
  | nil => intro st; simp [insAfter]
  | cons e rest ih =>
    intro st
    cases e with
    | turnInsert n r tt c =>
      rw [show insAfter (Event.turnInsert n r tt c :: rest) st = insAfter rest (n :: st) from rfl,
        ih]
      constructor
      · rintro (hx | hx)
        · rcases List.mem_cons.mp hx with rfl | hx2
          · exact Or.inr ⟨r, tt, c, List.mem_cons_self _ _⟩
          · exact Or.inl hx2
        · obtain ⟨r2, tt2, c2, hm⟩ := hx
          exact Or.inr ⟨r2, tt2, c2, List.mem_cons_of_mem _ hm⟩
      · rintro (hx | ⟨r2, tt2, c2, hm⟩)
        · exact Or.inl (List.mem_cons_of_mem _ hx)
        · rcases List.mem_cons.mp hm with heq | hm2
          · injection heq with h1 _ _ _
            exact Or.inl (h1 ▸ List.mem_cons_self _ _)
          · exact Or.inr ⟨r2, tt2, c2, hm2⟩
    | genCall m r h =>
      rw [show insAfter (Event.genCall m r h :: rest) st = insAfter rest st from rfl, ih]
      simp
    | statusWrite s ok =>
      rw [show insAfter (Event.statusWrite s ok :: rest) st = insAfter rest st from rfl, ih]
      simp
    | errorWrite d ok =>
      rw [show insAfter (Event.errorWrite d ok :: rest) st = insAfter rest st from rfl, ih]
      simp
    | searchCall r q =>
      rw [show insAfter (Event.searchCall r q :: rest) st = insAfter rest st from rfl, ih]
      simp
    | docsInsert i n ok =>
      rw [show insAfter (Event.docsInsert i n ok :: rest) st = insAfter rest st from rfl, ih]
      simp
    | docsLoad p =>
      rw [show insAfter (Event.docsLoad p :: rest) st = insAfter rest st from rfl, ih]
      simp
    | verifierCall n cs =>
      rw [show insAfter (Event.verifierCall n cs :: rest) st = insAfter rest st from rfl, ih]
      simp
    | fcInsert n fc ok =>
      rw [show insAfter (Event.fcInsert n fc ok :: rest) st = insAfter rest st from rfl, ih]
      simp
    | alertInsert n s c ok =>
      rw [show insAfter (Event.alertInsert n s c ok :: rest) st = insAfter rest st from rfl, ih]
      simp
    | delayStep ms =>
      rw [show insAfter (Event.delayStep ms :: rest) st = insAfter rest st from rfl, ih]
      simp
    | votesRead =>
      rw [show insAfter (Event.votesRead :: rest) st = insAfter rest st from rfl, ih]
      simp
    | summaryCall =>
      rw [show insAfter (Event.summaryCall :: rest) st = insAfter rest st from rfl, ih]
      simp
    | summaryInsert ok =>
      rw [show insAfter (Event.summaryInsert ok :: rest) st = insAfter rest st from rfl, ih]
      simp

theorem depScan_true_of_no_conGen (mt : Nat) :
    ∀ (evs : List Event) (st : List Nat),
      (∀ m h, Event.genCall m Role.con h ∉ evs) → depScan mt evs st = true := by
  intro evs
  induction evs with
  | nil => intro st _; rfl
  | cons e rest ih =>
    intro st hno
    have hrest : ∀ m h, Event.genCall m Role.con h ∉ rest := by
      intro m h hmem
      exact hno m h (List.mem_cons_of_mem _ hmem)
    cases e with
    | genCall m r h =>
      cases r with
      | pro => exact ih st hrest
      | con => exact absurd (List.mem_cons_self _ _) (hno m h)
    | turnInsert n r tt c => exact ih (n :: st) hrest
    | statusWrite s ok => exact ih st hrest
    | errorWrite d ok => exact ih st hrest
    | searchCall r q => exact ih st hrest
    | docsInsert i n ok => exact ih st hrest
    | docsLoad p => exact ih st hrest
    | verifierCall n cs => exact ih st hrest
    | fcInsert n fc ok => exact ih st hrest
    | alertInsert n s c ok => exact ih st hrest
    | delayStep ms => exact ih st hrest
    | votesRead => exact ih st hrest
    | summaryCall => exact ih st hrest
    | summaryInsert ok => exact ih st hrest

theorem insAfter_id_of_no_insert :
    ∀ (evs : List Event) (st : List Nat),
      (∀ e ∈ evs, toPersist e = none) → insAfter evs st = st := by
  intro evs
  induction evs with
  | nil => intro st _; rfl
  | cons e rest ih =>
    intro st hno
    have hrest : ∀ e ∈ rest, toPersist e = none := fun e he =>
      hno e (List.mem_cons_of_mem _ he)
    cases e with
    | turnInsert n r tt c =>
      exact absurd (hno _ (List.mem_cons_self _ _)) (by simp [toPersist])
    | genCall m r h => exact ih st hrest
    | statusWrite s ok => exact ih st hrest
    | errorWrite d ok => exact ih st hrest
    | searchCall r q => exact ih st hrest
    | docsInsert i n ok => exact ih st hrest
    | docsLoad p => exact ih st hrest
    | verifierCall n cs => exact ih st hrest
    | fcInsert n fc ok => exact ih st hrest
    | alertInsert n s c ok => exact ih st hrest
    | delayStep ms => exact ih st hrest
    | votesRead => exact ih st hrest
    | summaryCall => exact ih st hrest
    | summaryInsert ok => exact ih st hrest

theorem DepOkM.pureOk {mt : Nat} {st : List Nat} {α : Type} (a : α) :
    DepOkM mt st (M.pure a) := rfl

theorem DepOkM.throwOk {mt : Nat} {st : List Nat} {α : Type} (msg : String) :
    DepOkM mt st (throwErr (α := α) msg) := rfl

theorem DepOkM.bindOk {mt : Nat} {st : List Nat} {α β : Type}
    {m : M α} {f : α → M β} (hm : DepOkM mt st m)
    (hf : ∀ a, m.2 = .ok a → DepOkM mt (insAfter m.1 st) (f a)) :
    DepOkM mt st (M.bind m f) := by
  rcases m with ⟨evs, r⟩
  cases r with
  | error e => exact hm
  | ok a =>
    show depScan mt (evs ++ (f a).1) st = true
    rw [depScan_append]
    have h1 : depScan mt evs st = true := hm
    have h2 : depScan mt (f a).1 (insAfter evs st) = true := hf a rfl
    rw [h1, h2]
    rfl

theorem runFactChecks_toPersist_none (env : Env) (turn : Turn) (response : AgentResponse) :
    ∀ e ∈ (runFactChecks env turn response).1, toPersist e = none :=
  List.filterMap_eq_nil_iff.mp (runFactChecks_persists env turn response)

theorem runFactChecks_no_conGen (env : Env) (turn : Turn) (response : AgentResponse) :
    ∀ m h, Event.genCall m Role.con h ∉ (runFactChecks env turn response).1 := by
  intro m h hmem
  by_cases hc : response.claims = []
  · rw [runFactChecks_eq_nil hc] at hmem
    simp at hmem
  · rw [runFactChecks_eq_cons hc] at hmem
    have hm2 : Event.genCall m Role.con h ∈ Event.verifierCall turn.turn_number response.claims ::
        (match checkClaims (env.fcApi turn.turn_number) response.claims with
        | .error _ => []
        | .ok results => (persistFactChecks env turn.turn_number results).1) := hmem
    rcases List.mem_cons.mp hm2 with heq | hmem2
    · exact Event.noConfusion heq
    · revert hmem2
      cases checkClaims (env.fcApi turn.turn_number) response.claims with
      | error e => intro hmem2; simp at hmem2
      | ok results =>
        intro hmem2
        simp only [persistFactChecks, List.mem_flatMap] at hmem2
        obtain ⟨pr, _, hin⟩ := hmem2
        unfold factCheckWrites at hin
        rcases List.mem_cons.mp hin with heq | hin2
        · exact Event.noConfusion heq
        · split at hin2
          · rw [List.mem_singleton] at hin2
            exact Event.noConfusion hin2
          · simp at hin2

theorem persistTurn_depOk (mt : Nat) (st : List Nat) (env : Env) (g : GeneratedTurnData) :
    DepOkM mt st (persistTurn env g) := by
  unfold DepOkM
  rw [persistTurn_eq]
  cases env.turnInsert g.turnNumber with
  | some e => rfl
  | none =>
    show depScan mt (Event.turnInsert g.turnNumber g.role g.turnType g.agentResponse.argument ::
      (runFactChecks env (mkTurn g) g.agentResponse).1) st = true
    show depScan mt (runFactChecks env (mkTurn g) g.agentResponse).1 (g.turnNumber :: st) = true
    exact depScan_true_of_no_conGen mt _ _ (runFactChecks_no_conGen env (mkTurn g) g.agentResponse)

theorem insAfter_persistTurn (env : Env) (g : GeneratedTurnData) (st : List Nat) :
    insAfter (persistTurn env g).1 st = g.turnNumber :: st := by
  rw [persistTurn_eq]
  cases env.turnInsert g.turnNumber with
  | some e => rfl
  | none =>
    show insAfter (runFactChecks env (mkTurn g) g.agentResponse).1 (g.turnNumber :: st) = _
    exact insAfter_id_of_no_insert _ _ (runFactChecks_toPersist_none env (mkTurn g) g.agentResponse)

theorem insAfter_generateTurn (env : Env) (debate : Debate) (agent : Agent) (role : Role)
    (turnNumber : Nat) (turnType : Option TurnType) (previousTurns : List Turn)
    (researchResults : ResearchResults) (documents : List Document) (st : List Nat) :
    insAfter (generateTurn env debate agent role turnNumber turnType previousTurns
      researchResults documents).1 st = st := by
  unfold generateTurn
  cases env.gen turnNumber <;> rfl

theorem generateTurn_depOk_pro (mt : Nat) (st : List Nat) (env : Env) (debate : Debate)
    (agent : Agent) (turnNumber : Nat) (turnType : Option TurnType)
    (previousTurns : List Turn) (researchResults : ResearchResults)
    (documents : List Document) :
    DepOkM mt st (generateTurn env debate agent .pro turnNumber turnType previousTurns
      researchResults documents) := by
  unfold DepOkM generateTurn
  cases env.gen turnNumber <;> rfl

theorem generateTurn_depOk_con_intro (mt : Nat) (st : List Nat) (env : Env)
    (debate : Debate) (agent : Agent) (turnNumber : Nat) (turnType : Option TurnType)
    (previousTurns : List Turn) (researchResults : ResearchResults)
    (documents : List Document)
    (hintro : getTurnType ((turnNumber : ℤ) - 1) (mt : ℤ) = .intro)
    (h1 : (turnNumber - 1) ∉ st)
    (h2 : (turnNumber - 1) ∉ previousTurns.map Turn.turn_number) :
    DepOkM mt st (generateTurn env debate agent .con turnNumber turnType previousTurns
      researchResults documents) := by
  unfold DepOkM generateTurn
  cases env.gen turnNumber <;>
  · show depScan mt [Event.genCall turnNumber .con (previousTurns.map Turn.turn_number)] st = true
    simp [depScan, hintro, h1, h2]

theorem generateTurn_depOk_con_seq (mt : Nat) (st : List Nat) (env : Env)
    (debate : Debate) (agent : Agent) (turnNumber : Nat) (turnType : Option TurnType)
    (previousTurns : List Turn) (researchResults : ResearchResults)
    (documents : List Document)
    (hseq : getTurnType ((turnNumber : ℤ) - 1) (mt : ℤ) ≠ .intro)
    (h1 : (turnNumber - 1) ∈ st)
    (h2 : (turnNumber - 1) ∈ previousTurns.map Turn.turn_number) :
    DepOkM mt st (generateTurn env debate agent .con turnNumber turnType previousTurns
      researchResults documents) := by
  unfold DepOkM generateTurn
  cases env.gen turnNumber <;>
  · show depScan mt [Event.genCall turnNumber .con (previousTurns.map Turn.turn_number)] st = true
    simp [depScan, h1, h2, if_neg hseq]

theorem persistTurn_ok {env : Env} {g : GeneratedTurnData}
    {res : Turn × List FactCheckResult}
    (h : (persistTurn env g).2 = .ok res) : res.1 = mkTurn g := by
  rw [persistTurn_eq] at h
  revert h
  cases env.turnInsert g.turnNumber with
  | some e => intro h; exact absurd h (by simp)
  | none =>
    intro h
    revert h
    cases (runFactChecks env (mkTurn g) g.agentResponse).2 with
    | error e => intro h; exact absurd h (by simp)
    | ok fcs =>
      intro h
      obtain rfl := (Except.ok.inj h).symm
      rfl

theorem persistTurn_pairEventOk {p : Nat} (env : Env) (g : GeneratedTurnData)
    (hg : (g.turnNumber = p ∧ g.role = .pro) ∨ (g.turnNumber = p + 1 ∧ g.role = .con)) :
    EventsP (pairEventOk p) (persistTurn env g) := by
  intro e he
  rw [persistTurn_eq] at he
  revert he
  cases env.turnInsert g.turnNumber with
  | some msg =>
    intro he
    have he2 : e ∈ [Event.turnInsert g.turnNumber g.role g.turnType g.agentResponse.argument] := he
    rw [List.mem_singleton] at he2
    subst he2
    exact ⟨fun n r tt c heq => by injection heq with h1 h2 _ _; subst h1; subst h2; exact hg,
      fun m h heq => Event.noConfusion heq⟩
  | none =>
    intro he
    have he2 : e ∈ Event.turnInsert g.turnNumber g.role g.turnType g.agentResponse.argument ::
        (runFactChecks env (mkTurn g) g.agentResponse).1 := he
    rcases List.mem_cons.mp he2 with rfl | hfc
    · exact ⟨fun n r tt c heq => by injection heq with h1 h2 _ _; subst h1; subst h2; exact hg,
        fun m h heq => Event.noConfusion heq⟩
    · constructor
      · intro n r tt c heq
        subst heq
        exact absurd (runFactChecks_toPersist_none env (mkTurn g) g.agentResponse _ hfc)
          (by simp [toPersist])
      · intro m h heq
        subst heq
        exact absurd hfc (runFactChecks_no_conGen env (mkTurn g) g.agentResponse m h)

theorem generateTurn_pairEventOk {p : Nat} (env : Env) (debate : Debate) (agent : Agent)
    (role : Role) (turnNumber : Nat) (turnType : Option TurnType)
    (previousTurns : List Turn) (researchResults : ResearchResults)
    (documents : List Document)
    (hrole : role = .con → turnNumber = p + 1) :
    EventsP (pairEventOk p) (generateTurn env debate agent role turnNumber turnType
      previousTurns researchResults documents) := by
  intro e he
  rw [generateTurn_eq] at he
  have he2 : e ∈ [Event.genCall turnNumber role (previousTurns.map Turn.turn_number)] := he
  rw [List.mem_singleton] at he2
  subst he2
  constructor
  · intro n r tt c heq
    exact Event.noConfusion heq
  · intro m h heq
    injection heq with h1 h2 _
    subst h1
    exact hrole h2

theorem pairEventOk_emit {p : Nat} {e : Event}
    (h1 : ∀ n r tt c, e ≠ .turnInsert n r tt c)
    (h2 : ∀ m h, e ≠ .genCall m .con h) :
    EventsP (pairEventOk p) (emit e) :=
  EventsP.emit ⟨fun n r tt c heq => absurd heq (h1 n r tt c),
    fun m h heq => absurd heq (h2 m h)⟩

theorem runPair_events (env : Env) (debate : Debate) (proAgent conAgent : Agent)
    (proResearch conResearch : ResearchResults) (maxTurns pairStart : Nat)
    (allTurns : List Turn) :
    EventsP (pairEventOk pairStart)
      (runPair env debate proAgent conAgent proResearch conResearch
        maxTurns pairStart allTurns) := by
  unfold runPair loadDocuments
  refine EventsP.bind_restricted
    (EventsP.bind_restricted
      (pairEventOk_emit (fun _ _ _ _ => Event.noConfusion) (fun _ _ => Event.noConfusion))
      fun _ _ => EventsP.pure _)
    fun documents _ => ?_
  by_cases hit : getTurnType (pairStart : ℤ) (maxTurns : ℤ) = .intro
  · rw [if_pos hit]
    refine EventsP.bind_restricted
      (generateTurn_pairEventOk env debate proAgent .pro pairStart _ allTurns proResearch
        documents (fun hr => Role.noConfusion hr))
      fun proG hproG => ?_
    by_cases hcon : pairStart + 1 ≤ maxTurns
    · rw [if_pos hcon]
      refine EventsP.bind_restricted
        (EventsP.bind_restricted
          (generateTurn_pairEventOk env debate conAgent .con (pairStart + 1) _ allTurns
            conResearch documents (fun _ => rfl))
          fun g _ => EventsP.pure _)
        fun conGen hcg => ?_
      obtain ⟨g, hgen, hp⟩ := M.bind_result_ok hcg
      obtain rfl : some g = conGen := Except.ok.inj hp
      refine EventsP.bind_restricted
        (persistTurn_pairEventOk env proG
          (Or.inl ⟨(generateTurn_ok hproG).1, (generateTurn_ok hproG).2⟩))
        fun proRes _ => ?_
      refine EventsP.bind_restricted
        (pairEventOk_emit (fun _ _ _ _ => Event.noConfusion) (fun _ _ => Event.noConfusion))
        fun _ _ => ?_
      refine EventsP.bind_restricted
        (persistTurn_pairEventOk env g
          (Or.inr ⟨(generateTurn_ok hgen).1, (generateTurn_ok hgen).2⟩))
        fun conRes _ => EventsP.pure _
    · rw [if_neg hcon]
      refine EventsP.bind_restricted (EventsP.pure _) fun conGen hcg => ?_
      obtain rfl : (none : Option GeneratedTurnData) = conGen := Except.ok.inj hcg
      refine EventsP.bind_restricted
        (persistTurn_pairEventOk env proG
          (Or.inl ⟨(generateTurn_ok hproG).1, (generateTurn_ok hproG).2⟩))
        fun proRes _ => EventsP.pure _
  · rw [if_neg hit]
    refine EventsP.bind_restricted
      (generateTurn_pairEventOk env debate proAgent .pro pairStart _ allTurns proResearch
        documents (fun hr => Role.noConfusion hr))
      fun proG hproG => ?_
    refine EventsP.bind_restricted
      (persistTurn_pairEventOk env proG
        (Or.inl ⟨(generateTurn_ok hproG).1, (generateTurn_ok hproG).2⟩))
      fun proRes _ => ?_
    by_cases hcon : pairStart + 1 ≤ maxTurns
    · rw [if_pos hcon]
      refine EventsP.bind_restricted
        (generateTurn_pairEventOk env debate conAgent .con (pairStart + 1) _ _
          conResearch documents (fun _ => rfl))
        fun conG hcg => ?_
      refine EventsP.bind_restricted
        (pairEventOk_emit (fun _ _ _ _ => Event.noConfusion) (fun _ _ => Event.noConfusion))
        fun _ _ => ?_
      refine EventsP.bind_restricted
        (persistTurn_pairEventOk env conG
          (Or.inr ⟨(generateTurn_ok hcg).1, (generateTurn_ok hcg).2⟩))
        fun conRes _ => EventsP.pure _
    · rw [if_neg hcon]
      exact EventsP.pure _

theorem insAfter_genPure (env : Env) (debate : Debate) (agent : Agent) (role : Role)
    (turnNumber : Nat) (turnType : Option TurnType) (previousTurns : List Turn)
    (researchResults : ResearchResults) (documents : List Document) (st : List Nat) :
    insAfter (M.bind (generateTurn env debate agent role turnNumber turnType
      previousTurns researchResults documents) fun g => M.pure (some g)).1 st = st := by
  unfold generateTurn
  cases env.gen turnNumber <;> rfl

theorem runPair_depOk (env : Env) (debate : Debate) (proAgent conAgent : Agent)
    (proResearch conResearch : ResearchResults) (maxTurns pairStart : Nat)
    (allTurns : List Turn) (st : List Nat)
    (hst : ∀ x ∈ st, x < pairStart)
    (hacc : ∀ t ∈ allTurns, t.turn_number < pairStart) :
    DepOkM maxTurns st (runPair env debate proAgent conAgent proResearch conResearch
      maxTurns pairStart allTurns) := by
  have hcast : ((pairStart + 1 : ℕ) : ℤ) - 1 = (pairStart : ℤ) := by push_cast; ring
  have hp_not_st : pairStart ∉ st := fun hmem => absurd (hst _ hmem) (by omega)
  have hp_not_acc : pairStart ∉ allTurns.map Turn.turn_number := by
    intro hmem
    obtain ⟨t, ht, htn⟩ := List.mem_map.mp hmem
    have := hacc t ht
    rw [htn] at this
    omega
  unfold runPair loadDocuments
  refine DepOkM.bindOk
    (DepOkM.bindOk rfl fun _ _ => DepOkM.pureOk _) fun documents _ => ?_
  by_cases hit : getTurnType (pairStart : ℤ) (maxTurns : ℤ) = .intro
  · rw [if_pos hit]
    refine DepOkM.bindOk (generateTurn_depOk_pro _ _ _ _ _ _ _ _ _ _)
      fun proG hproG => ?_
    rw [insAfter_generateTurn]
    by_cases hcon : pairStart + 1 ≤ maxTurns
    · rw [if_pos hcon]
      refine DepOkM.bindOk
        (DepOkM.bindOk ?_ fun g _ => DepOkM.pureOk _) fun conGen hcg => ?_
      · refine generateTurn_depOk_con_intro _ _ _ _ _ _ _ _ _ _ ?_ ?_ ?_
        · rw [hcast]; exact hit
        · exact hp_not_st
        · exact hp_not_acc
      · rw [insAfter_genPure]
        obtain ⟨g, hgen, hpv⟩ := M.bind_result_ok hcg
        obtain rfl : some g = conGen := Except.ok.inj hpv
        refine DepOkM.bindOk (persistTurn_depOk _ _ _ _) fun proRes hres => ?_
        rw [insAfter_persistTurn]
        refine DepOkM.bindOk rfl fun _ _ => ?_
        exact DepOkM.bindOk (persistTurn_depOk _ _ _ _) fun conRes _ => DepOkM.pureOk _
    · rw [if_neg hcon]
      refine DepOkM.bindOk (DepOkM.pureOk _) fun conGen hcg => ?_
      obtain rfl : (none : Option GeneratedTurnData) = conGen := Except.ok.inj hcg
      exact DepOkM.bindOk (persistTurn_depOk _ _ _ _) fun proRes _ => DepOkM.pureOk _
  · rw [if_neg hit]
    refine DepOkM.bindOk (generateTurn_depOk_pro _ _ _ _ _ _ _ _ _ _)
      fun proG hproG => ?_
    rw [insAfter_generateTurn]
    refine DepOkM.bindOk (persistTurn_depOk _ _ _ _) fun proRes hres => ?_
    rw [insAfter_persistTurn]
    by_cases hcon : pairStart + 1 ≤ maxTurns
    · rw [if_pos hcon]
      have hnum := (generateTurn_ok hproG).1
      refine DepOkM.bindOk ?_ fun conG hcg => ?_
      · refine generateTurn_depOk_con_seq _ _ _ _ _ _ _ _ _ _ ?_ ?_ ?_
        · rw [hcast]; exact hit
        · show pairStart ∈ proG.turnNumber :: st
          rw [hnum]
          exact List.mem_cons_self _ _
        · show pairStart ∈ (allTurns ++ [proRes.1]).map Turn.turn_number
          refine List.mem_map.mpr ⟨proRes.1,
            List.mem_append_right _ (List.mem_singleton.mpr rfl), ?_⟩
          rw [persistTurn_ok hres]
          show proG.turnNumber = pairStart
          exact hnum
      · rw [insAfter_generateTurn]
        refine DepOkM.bindOk rfl fun _ _ => ?_
        exact DepOkM.bindOk (persistTurn_depOk _ _ _ _) fun conRes _ => DepOkM.pureOk _
    · rw [if_neg hcon]
      exact DepOkM.pureOk _

theorem runPair_insAfter (env : Env) (debate : Debate) (proAgent conAgent : Agent)
    (proResearch conResearch : ResearchResults) (maxTurns pairStart : Nat)
    (allTurns : List Turn) (st : List Nat)
    (hst : ∀ x ∈ st, x < pairStart + 2) :
    ∀ x ∈ insAfter (runPair env debate proAgent conAgent proResearch conResearch
      maxTurns pairStart allTurns).1 st, x < pairStart + 2 := by
  intro x hx
  rcases (mem_insAfter_iff x _ st).mp hx with hmem | ⟨r, tt, c, hmem⟩
  · exact hst x hmem
  · have hev := runPair_events env debate proAgent conAgent proResearch conResearch
      maxTurns pairStart allTurns _ hmem
    rcases hev.1 x r tt c rfl with ⟨h1, _⟩ | ⟨h1, _⟩ <;> omega

theorem runPair_result (env : Env) (debate : Debate) (proAgent conAgent : Agent)
    (proResearch conResearch : ResearchResults) (maxTurns pairStart : Nat)
    (allTurns : List Turn) (res : List Turn)
    (hok : (runPair env debate proAgent conAgent proResearch conResearch
      maxTurns pairStart allTurns).2 = .ok res)
    (hacc : ∀ t ∈ allTurns, t.turn_number < pairStart) :
    ∀ t ∈ res, t.turn_number < pairStart + 2 := by
  unfold runPair at hok
  rw [loadDocuments_eq, M.bind_mk_ok] at hok
  try dsimp only at hok
  by_cases hit : getTurnType (pairStart : ℤ) (maxTurns : ℤ) = .intro
  · rw [if_pos hit] at hok
    obtain ⟨proG, hg, hok2, -⟩ := M.bind_ok_elim hok
    try dsimp only at hok2
    obtain ⟨hnum, -⟩ := generateTurn_ok hg
    by_cases hcon : pairStart + 1 ≤ maxTurns
    · rw [if_pos hcon] at hok2
      obtain ⟨conGopt, hcg, hok3, -⟩ := M.bind_ok_elim hok2
      obtain ⟨conG, hcg1, hcg2, -⟩ := M.bind_ok_elim hcg
      obtain rfl : some conG = conGopt := Except.ok.inj hcg2
      obtain ⟨hnum2, -⟩ := generateTurn_ok hcg1
      try dsimp only at hok3
      obtain ⟨proRes, hpp, hok4, -⟩ := M.bind_ok_elim hok3
      try dsimp only at hok4
      rw [M.bind_emit] at hok4
      try dsimp only at hok4
      obtain ⟨conRes, hcp, hok5, -⟩ := M.bind_ok_elim hok4
      obtain rfl : allTurns ++ [proRes.1] ++ [conRes.1] = res := Except.ok.inj hok5
      intro t ht
      rcases List.mem_append.mp ht with ht2 | ht2
      · rcases List.mem_append.mp ht2 with ht3 | ht3
        · have := hacc t ht3; omega
        · rw [List.mem_singleton] at ht3
          subst ht3
          rw [persistTurn_ok hpp]
          show proG.turnNumber < pairStart + 2
          omega
      · rw [List.mem_singleton] at ht2
        subst ht2
        rw [persistTurn_ok hcp]
        show conG.turnNumber < pairStart + 2
        omega
    · rw [if_neg hcon] at hok2
      obtain ⟨conGopt, hcg, hok3, -⟩ := M.bind_ok_elim hok2
      obtain rfl : (none : Option GeneratedTurnData) = conGopt := Except.ok.inj hcg
      try dsimp only at hok3
      obtain ⟨proRes, hpp, hok4, -⟩ := M.bind_ok_elim hok3
      obtain rfl : allTurns ++ [proRes.1] = res := Except.ok.inj hok4
      intro t ht
      rcases List.mem_append.mp ht with ht2 | ht2
      · have := hacc t ht2; omega
      · rw [List.mem_singleton] at ht2
        subst ht2
        rw [persistTurn_ok hpp]
        show proG.turnNumber < pairStart + 2
        omega
  · rw [if_neg hit] at hok
    obtain ⟨proG, hg, hok2, -⟩ := M.bind_ok_elim hok
    try dsimp only at hok2
    obtain ⟨hnum, -⟩ := generateTurn_ok hg
    obtain ⟨proRes, hpp, hok3, -⟩ := M.bind_ok_elim hok2
    try dsimp only at hok3
    by_cases hcon : pairStart + 1 ≤ maxTurns
    · rw [if_pos hcon] at hok3
      obtain ⟨conG, hcg, hok4, -⟩ := M.bind_ok_elim hok3
      obtain ⟨hnum2, -⟩ := generateTurn_ok hcg
      try dsimp only at hok4
      rw [M.bind_emit] at hok4
      try dsimp only at hok4
      obtain ⟨conRes, hcp, hok5, -⟩ := M.bind_ok_elim hok4
      obtain rfl : allTurns ++ [proRes.1] ++ [conRes.1] = res := Except.ok.inj hok5
      intro t ht
      rcases List.mem_append.mp ht with ht2 | ht2
      · rcases List.mem_append.mp ht2 with ht3 | ht3
        · have := hacc t ht3; omega
        · rw [List.mem_singleton] at ht3
          subst ht3
          rw [persistTurn_ok hpp]
          show proG.turnNumber < pairStart + 2
          omega
      · rw [List.mem_singleton] at ht2
        subst ht2
        rw [persistTurn_ok hcp]
        show conG.turnNumber < pairStart + 2
        omega
    · rw [if_neg hcon] at hok3
      obtain rfl : allTurns ++ [proRes.1] = res := Except.ok.inj hok3
      intro t ht
      rcases List.mem_append.mp ht with ht2 | ht2
      · have := hacc t ht2; omega
      · rw [List.mem_singleton] at ht2
        subst ht2
        rw [persistTurn_ok hpp]
        show proG.turnNumber < pairStart + 2
        omega

theorem turnLoop_depOk (env : Env) (debate : Debate) (proAgent conAgent : Agent)
    (proResearch conResearch : ResearchResults) :
    ∀ (k maxTurns pairStart : Nat) (allTurns : List Turn) (st : List Nat),
      maxTurns + 1 - pairStart ≤ k →
      (∀ x ∈ st, x < pairStart) → (∀ t ∈ allTurns, t.turn_number < pairStart) →
      DepOkM maxTurns st (turnLoop env debate proAgent conAgent proResearch conResearch
        maxTurns pairStart allTurns) := by
  intro k
  induction k with
  | zero =>
    intro mt p acc st hk h1 h2
    rw [turnLoop, if_neg (by omega)]
    exact DepOkM.pureOk _
  | succ n ih =>
    intro mt p acc st hk h1 h2
    rw [turnLoop]
    by_cases hle : p ≤ mt
    · rw [if_pos hle]
      refine DepOkM.bindOk
        (runPair_depOk env debate proAgent conAgent proResearch conResearch mt p acc st h1 h2)
        fun turns hres => ?_
      refine ih mt (p + 2) turns _ (by omega) ?_ ?_
      · exact runPair_insAfter env debate proAgent conAgent proResearch conResearch
          mt p acc st (fun x hx => by have := h1 x hx; omega)
      · exact runPair_result env debate proAgent conAgent proResearch conResearch
          mt p acc turns hres h2
    · rw [if_neg hle]
      exact DepOkM.pureOk _

theorem pairEventOk_turnParity {p : Nat} (hodd : p % 2 = 1) (e : Event)
    (h : pairEventOk p e) : turnParity e := by
  obtain ⟨hins, hgen⟩ := h
  constructor
  · intro n r tt c heq
    rcases hins n r tt c heq with ⟨h1, h2⟩ | ⟨h1, h2⟩
    · subst h1; subst h2
      exact ⟨⟨fun _ => rfl, fun _ => hodd⟩, by omega⟩
    · subst h1; subst h2
      refine ⟨⟨fun hx => absurd hx (by omega), fun hx => Role.noConfusion hx⟩, by omega⟩
  · intro m h heq
    have := hgen m h heq
    omega

theorem turnLoop_turnParity (env : Env) (debate : Debate) (proAgent conAgent : Agent)
    (proResearch conResearch : ResearchResults) :
    ∀ (k maxTurns pairStart : Nat) (allTurns : List Turn),
      maxTurns + 1 - pairStart ≤ k → pairStart % 2 = 1 →
      EventsP turnParity (turnLoop env debate proAgent conAgent proResearch conResearch
        maxTurns pairStart allTurns) := by
  intro k
  induction k with
  | zero =>
    intro mt p acc hk hodd
    rw [turnLoop, if_neg (by omega)]
    exact EventsP.pure _
  | succ n ih =>
    intro mt p acc hk hodd
    rw [turnLoop]
    by_cases hle : p ≤ mt
    · rw [if_pos hle]
      refine EventsP.bind_restricted
        (fun e he => pairEventOk_turnParity hodd e
          (runPair_events env debate proAgent conAgent proResearch conResearch mt p acc e he))
        fun turns _ => ih mt (p + 2) turns (by omega) (by omega)
    · rw [if_neg hle]
      exact EventsP.pure _

theorem conductParallelResearch_depScan (mt : Nat) (st : List Nat) (env : Env)
    (topic : String) (role : Role) (debateId : String) :
    depScan mt (conductParallelResearch env topic role debateId).1 st = true := by
  rw [conductParallelResearch_trace_shape]
  split <;> rfl

theorem insAfter_research (env : Env) (topic : String) (role : Role)
    (debateId : String) (st : List Nat) :
    insAfter (conductParallelResearch env topic role debateId).1 st = st := by
  rw [conductParallelResearch_trace_shape]
  split <;> rfl

theorem runVotingAndSummary_depScan (mt : Nat) (st : List Nat) (env : Env) :
    depScan mt (runVotingAndSummary env).1 st = true := by
  unfold runVotingAndSummary updateStatus
  cases env.summaryGen <;> rfl

theorem turnParity_other {e : Event}
    (h1 : ∀ n r tt c, e ≠ .turnInsert n r tt c)
    (h2 : ∀ m h, e ≠ .genCall m .con h) : turnParity e :=
  ⟨fun n r tt c heq => absurd heq (h1 n r tt c),
   fun m h heq => absurd heq (h2 m h)⟩

theorem conductParallelResearch_turnParity (env : Env) (topic : String) (role : Role)
    (debateId : String) :
    EventsP turnParity (conductParallelResearch env topic role debateId) := by
  intro e he
  rw [conductParallelResearch_trace_shape] at he
  rcases List.mem_cons.mp he with rfl | h
  · exact turnParity_other (fun _ _ _ _ => Event.noConfusion) (fun _ _ => Event.noConfusion)
  · split at h
    · rw [List.mem_singleton] at h
      subst h
      exact turnParity_other (fun _ _ _ _ => Event.noConfusion) (fun _ _ => Event.noConfusion)
    · simp at h

theorem runVotingAndSummary_turnParity (env : Env) :
    EventsP turnParity (runVotingAndSummary env) := by
  unfold runVotingAndSummary updateStatus
  refine EventsP.bind (EventsP.emit (turnParity_other (fun _ _ _ _ => Event.noConfusion)
    (fun _ _ => Event.noConfusion))) fun _ => ?_
  refine EventsP.bind (EventsP.emit (turnParity_other (fun _ _ _ _ => Event.noConfusion)
    (fun _ _ => Event.noConfusion))) fun _ => ?_
  refine EventsP.bind (EventsP.emit (turnParity_other (fun _ _ _ _ => Event.noConfusion)
    (fun _ _ => Event.noConfusion))) fun _ => ?_
  refine EventsP.bind (EventsP.emit (turnParity_other (fun _ _ _ _ => Event.noConfusion)
    (fun _ _ => Event.noConfusion))) fun _ => ?_
  refine EventsP.bind (EventsP.emit (turnParity_other (fun _ _ _ _ => Event.noConfusion)
    (fun _ _ => Event.noConfusion))) fun _ => ?_
  cases env.summaryGen with
  | error e => exact EventsP.throw _
  | ok s =>
    exact EventsP.bind (EventsP.emit (turnParity_other (fun _ _ _ _ => Event.noConfusion)
      (fun _ _ => Event.noConfusion))) fun _ =>
      EventsP.emit (turnParity_other (fun _ _ _ _ => Event.noConfusion)
        (fun _ _ => Event.noConfusion))

theorem runDebate_depOk (env : Env) (debateId : String) (debate : Debate)
    (h1 : env.debateLoad = .ok debate) :
    depScan debate.config.maxTurns (runDebate env debateId) [] = true := by
  have hbody : depScan debate.config.maxTurns (runDebateBody env debateId).1 [] = true := by
    cases h2 : env.agentsLoad with
    | error e =>
      unfold runDebateBody
      rw [h1, h2]
      rfl
    | ok agents =>
    cases h3 : agents.find? (fun a => a.role == "pro") with
    | none =>
      rw [runDebateBody_unfold env debateId debate agents h1 h2, h3]
      rfl
    | some proAgent =>
    cases h4 : agents.find? (fun a => a.role == "con") with
    | none =>
      rw [runDebateBody_unfold env debateId debate agents h1 h2, h3, h4]
      rfl
    | some conAgent =>
    rw [runDebateBody_shape env debateId debate agents proAgent conAgent h1 h2 h3 h4]
    show depScan debate.config.maxTurns
      ((conductParallelResearch env debate.topic .pro debateId).1 ++
        ((conductParallelResearch env debate.topic .con debateId).1 ++
          Event.statusWrite "live" (env.statusOk "live") ::
            (M.bind (turnLoop env debate proAgent conAgent (researchBundle env .pro)
              (researchBundle env .con) debate.config.maxTurns 1 [])
              fun _ => runVotingAndSummary env).1)) [] = true
    rw [depScan_append, conductParallelResearch_depScan, insAfter_research, Bool.true_and]
    rw [depScan_append, conductParallelResearch_depScan, insAfter_research, Bool.true_and]
    show depScan debate.config.maxTurns
      (M.bind (turnLoop env debate proAgent conAgent (researchBundle env .pro)
        (researchBundle env .con) debate.config.maxTurns 1 [])
        fun _ => runVotingAndSummary env).1 [] = true
    exact DepOkM.bindOk
      (turnLoop_depOk env debate proAgent conAgent (researchBundle env .pro)
        (researchBundle env .con) (debate.config.maxTurns + 1 - 1)
        debate.config.maxTurns 1 [] [] (le_refl _) (by simp) (by simp))
      fun _ _ => runVotingAndSummary_depScan _ _ env
  unfold runDebate
  rcases hb : runDebateBody env debateId with ⟨evs, r⟩
  rw [hb] at hbody
  have hb2 : depScan debate.config.maxTurns evs [] = true := hbody
  cases r with
  | ok a => exact hb2
  | error msg =>
    show depScan debate.config.maxTurns
      (evs ++ [Event.errorWrite ("[ERROR] " ++ msg) env.errWriteOk]) [] = true
    rw [depScan_append, hb2, Bool.true_and]
    rfl

theorem runDebate_turnParity (env : Env) (debateId : String) (debate : Debate)
    (h1 : env.debateLoad = .ok debate) :
    ∀ e ∈ runDebate env debateId, turnParity e := by
  have hbody : ∀ e ∈ (runDebateBody env debateId).1, turnParity e := by
    cases h2 : env.agentsLoad with
    | error e2 =>
      unfold runDebateBody
      rw [h1, h2]
      intro e he
      have he2 : e ∈ ([] : List Event) := he
      simp at he2
    | ok agents =>
    cases h3 : agents.find? (fun a => a.role == "pro") with
    | none =>
      rw [runDebateBody_unfold env debateId debate agents h1 h2, h3]
      intro e he
      have he2 : e ∈ ([] : List Event) := he
      simp at he2
    | some proAgent =>
    cases h4 : agents.find? (fun a => a.role == "con") with
    | none =>
      rw [runDebateBody_unfold env debateId debate agents h1 h2, h3, h4]
      intro e he
      have he2 : e ∈ ([] : List Event) := he
      simp at he2
    | some conAgent =>
    rw [runDebateBody_shape env debateId debate agents proAgent conAgent h1 h2 h3 h4]
    intro e he
    have he2 : e ∈ Event.statusWrite "researching" (env.statusOk "researching") ::
        ((conductParallelResearch env debate.topic .pro debateId).1 ++
          ((conductParallelResearch env debate.topic .con debateId).1 ++
            Event.statusWrite "live" (env.statusOk "live") ::
              (M.bind (turnLoop env debate proAgent conAgent (researchBundle env .pro)
                (researchBundle env .con) debate.config.maxTurns 1 [])
                fun _ => runVotingAndSummary env).1)) := he
    rcases List.mem_cons.mp he2 with rfl | he3
    · exact turnParity_other (fun _ _ _ _ => Event.noConfusion) (fun _ _ => Event.noConfusion)
    rcases List.mem_append.mp he3 with hr | he4
    · exact conductParallelResearch_turnParity env _ _ _ e hr
    rcases List.mem_append.mp he4 with hr | he5
    · exact conductParallelResearch_turnParity env _ _ _ e hr
    rcases List.mem_cons.mp he5 with rfl | he6
    · exact turnParity_other (fun _ _ _ _ => Event.noConfusion) (fun _ _ => Event.noConfusion)
    have hloopP := turnLoop_turnParity env debate proAgent conAgent
      (researchBundle env .pro) (researchBundle env .con)
      (debate.config.maxTurns + 1 - 1) debate.config.maxTurns 1 [] (le_refl _) rfl
    rcases hl : turnLoop env debate proAgent conAgent (researchBundle env .pro)
      (researchBundle env .con) debate.config.maxTurns 1 [] with ⟨evsL, rL⟩
    rw [hl] at he6 hloopP
    cases rL with
    | error msg =>
      have he7 : e ∈ evsL := he6
      exact hloopP e he7
    | ok turns =>
      have he7 : e ∈ evsL ++ (runVotingAndSummary env).1 := he6
      rcases List.mem_append.mp he7 with h | h
      · exact hloopP e h
      · exact runVotingAndSummary_turnParity env e h
  intro e he
  unfold runDebate at he
  rcases hb : runDebateBody env debateId with ⟨evs, r⟩
  rw [hb] at he hbody
  cases r with
  | ok a => exact hbody e he
  | error msg =>
    have he2 : e ∈ evs ++ [Event.errorWrite ("[ERROR] " ++ msg) env.errWriteOk] := he
    rcases List.mem_append.mp he2 with h | h
    · exact hbody e h
    · rw [List.mem_singleton] at h
      subst h
      exact turnParity_other (fun _ _ _ _ => Event.noConfusion) (fun _ _ => Event.noConfusion)

/-- C5: in every execution of the engine (any environment, successful or
failing), whenever the trace contains a con generation call for turn `m`
(so `m - 1` is its paired pro turn), then: if the pair is not an opening
pair, the call comes strictly after the issued insert of pro turn `m - 1`
(which is present among the earlier events) and the history passed to the
call contains the persisted pro turn; and if the pair is an opening pair,
the call comes before any insert of turn `m - 1` and its history does not
contain the pro turn — only opening pairs are generated concurrently, with
neither side seeing the other. -/
theorem claim_C5 : ∀ (env : Env) (debateId : String) (debate : Debate),
    env.debateLoad = .ok debate →
    ∀ (xs : List Event) (m : Nat) (h : List Nat) (ys : List Event),
      runDebate env debateId = xs ++ .genCall m .con h :: ys →
      (getTurnType ((m : ℤ) - 1) (debate.config.maxTurns : ℤ) ≠ .intro →
        ((∃ tt c, Event.turnInsert (m - 1) .pro tt c ∈ xs) ∧ (m - 1) ∈ h))
      ∧ (getTurnType ((m : ℤ) - 1) (debate.config.maxTurns : ℤ) = .intro →
        ((∀ r tt c, Event.turnInsert (m - 1) r tt c ∉ xs) ∧ (m - 1) ∉ h)) := by
  intro env debateId debate h1 xs m h ys hdec
  have hscan := runDebate_depOk env debateId debate h1
  rw [hdec, depScan_append, Bool.and_eq_true] at hscan
  obtain ⟨hxs, hrest⟩ := hscan
  simp only [depScan] at hrest
  rw [Bool.and_eq_true] at hrest
  obtain ⟨hcond, -⟩ := hrest
  constructor
  · intro hne
    rw [if_neg hne] at hcond
    obtain ⟨hin, hinh⟩ : (m - 1) ∈ insAfter xs [] ∧ (m - 1) ∈ h := of_decide_eq_true hcond
    rcases (mem_insAfter_iff _ xs []).mp hin with hfalse | ⟨r, tt, c, hmem⟩
    · simp at hfalse
    · have hpar := runDebate_turnParity env debateId debate h1
      have hgc : Event.genCall m .con h ∈ runDebate env debateId := by
        rw [hdec]
        exact List.mem_append_right _ (List.mem_cons_self _ _)
      have hmeven := (hpar _ hgc).2 m h rfl
      have hti : Event.turnInsert (m - 1) r tt c ∈ runDebate env debateId := by
        rw [hdec]
        exact List.mem_append_left _ hmem
      have hparity := (hpar _ hti).1 (m - 1) r tt c rfl
      have hr : r = .pro := hparity.1.mp (by omega)
      subst hr
      exact ⟨⟨tt, c, hmem⟩, hinh⟩
  · intro hintro
    rw [if_pos hintro] at hcond
    obtain ⟨hnin, hninh⟩ : ¬ (m - 1) ∈ insAfter xs [] ∧ ¬ (m - 1) ∈ h :=
      of_decide_eq_true hcond
    exact ⟨fun r tt c hmem =>
      hnin ((mem_insAfter_iff _ xs []).mpr (Or.inr ⟨r, tt, c, hmem⟩)), hninh⟩

theorem sampleTrace_eq :
    runDebate (sampleEnv 4) "debate-1" =
      sampleTracePrefix ++ .genCall 4 .con [1, 2, 3] :: sampleTraceSuffix := by
  simp [runDebate, runDebateBody, sampleEnv, sampleDebate, sampleAgents, sampleResponse,
    turnLoop, runPair, updateStatus, loadDocuments, conductParallelResearch,
    runPerplexitySearch, buildCombinedContext, generateTurn,
    persistTurn, runFactChecks, persistFactChecks, checkClaims, parseResponse,
    mkTurn, runVotingAndSummary, emit, M.bind, M.pure, throwErr, getTurnType,
    List.find?, sampleTracePrefix, sampleTraceSuffix]

/-- Witness for C5: in the successful 4-turn sample run, the con
generation call for turn 4 (a closing, hence non-opening pair) is preceded
by the insert of pro turn 3 and sees turn 3 in its history. -/
theorem claim_C5_witness :
    (∃ tt c, Event.turnInsert 3 Role.pro tt c ∈ sampleTracePrefix) ∧ 3 ∈ [1, 2, 3] :=
  (claim_C5 (sampleEnv 4) "debate-1" (sampleDebate 4) rfl sampleTracePrefix 4 [1, 2, 3]
    sampleTraceSuffix sampleTrace_eq).1 (by decide)

end DebateModel
